import Mathlib

/-!
# Verification of the overlap-tracer core against its design specification

This development gives a shallow embedding, in Lean 4, of the core of the
`overlap-tracer` daemon — the batched event sender (`src/sender.ts`), the
tracer's journal-file processing and state persistence (`src/tracer.ts`),
the repository matcher (`src/matcher.ts`), the Claude-Code journal adapter
(`src/agents/claude-code.ts`), the line-enrichment helper
(`src/enrichment.ts`) and the overlap probe's local-mirror fallback
(`src/check.ts`) — and proves or refutes the design document's claims about
them.

Modelling conventions:
* JavaScript strings are modelled as `List Char` (`Str`); `undefined` as
  `Option.none`.  JavaScript truthiness on optional string fields (where
  the empty string is falsy) is modelled by `truthy`.
* Asynchronous `fetch` calls are modelled by an explicit in-flight request
  list on the sender state: `flushStart` performs the synchronous prefix of
  `EventSender.flush` (pop the queue, clear the timer, issue the request)
  and the `resolve*` functions model the promise resolutions (2xx, 401,
  other error / transport failure).
* Values that come from the environment (file system reads, `git` child
  processes, `hostname()`, the current time, `JSON.parse`) are passed in as
  explicit parameters, so every definition is a pure, executable function.
-/

namespace OverlapTracer

/-- JavaScript strings, modelled as lists of characters. -/
abbrev Str := List Char

/-- Convert a Lean string literal to the `Str` model. -/
def str (s : String) : Str := s.data

/-- JavaScript truthiness on an optional string field: `undefined` and the
empty string are falsy. -/
def truthy : Option Str → Option Str
  | some [] => none
  | x => x

/-- Boolean form of `truthy`. -/
def truthyB (x : Option Str) : Bool := (truthy x).isSome

theorem truthy_some {x : Option Str} {s : Str} (h : truthy x = some s) :
    x = some s := by
  unfold truthy at h
  split at h <;> simp_all

theorem truthyB_iff {x : Option Str} :
    truthyB x = true ↔ ∃ s, x = some s ∧ s ≠ [] := by
  unfold truthyB truthy
  split
  · simp_all
  · rename_i h
    cases x with
    | none => simp
    | some s =>
      cases s with
      | nil => simp_all
      | cons c cs => simp

/-- UTF-8 byte length of a string (`Buffer.byteLength(s, "utf-8")`). -/
def utf8Len (s : Str) : Nat := (s.map Char.utf8Size).sum

/-- `s.split("\n")` of JavaScript: splitting on the newline character.
`splitNl [] = [[]]`, matching `"".split("\n") = [""]`. -/
def splitNl : Str → List Str
  | [] => [[]]
  | c :: cs =>
    let rest := splitNl cs
    if c = '\n' then [] :: rest
    else
      match rest with
      | [] => [[c]]
      | r :: rs => (c :: r) :: rs

/-- `line.trim()` truthiness: the line contains a non-whitespace
character. -/
def nonBlank (s : Str) : Bool := s.any (fun c => ¬ c.isWhitespace)

/-- First index at which `needle` occurs in `haystack`
(`haystack.indexOf(needle)`), or `none`. -/
def indexOfSub : (haystack needle : Str) → Option Nat
  | _, [] => some 0
  | [], _ :: _ => none
  | c :: cs, needle =>
    if needle.isPrefixOf (c :: cs) then some 0
    else (indexOfSub cs needle).map (· + 1)

/-- Number of lines of `s.split("\n")`, i.e. 1 + number of newlines. -/
def lineCount (s : Str) : Nat := 1 + (s.filter (· = '\n')).length

/-- Association-list lookup (`Map.get`). -/
def alookup {α : Type} : List (Str × α) → Str → Option α
  | [], _ => none
  | (k, v) :: rest, key => if k = key then some v else alookup rest key

/-- Association-list update or insert (`Map.set`): replaces the first
binding of `key`, or appends a new one. -/
def aset {α : Type} : List (Str × α) → Str → α → List (Str × α)
  | [], key, v => [(key, v)]
  | (k, w) :: rest, key, v =>
    if k = key then (key, v) :: rest else (k, w) :: aset rest key v

/-- Association-list delete (`Map.delete`): removes the first binding. -/
def adel {α : Type} : List (Str × α) → Str → List (Str × α)
  | [], _ => []
  | (k, w) :: rest, key => if k = key then rest else (k, w) :: adel rest key

theorem alookup_aset_self {α : Type} (l : List (Str × α)) (k : Str) (v : α) :
    alookup (aset l k v) k = some v := by
  induction l with
  | nil => simp [aset, alookup]
  | cons hd tl ih =>
    obtain ⟨k', v'⟩ := hd
    by_cases h : k' = k <;> simp [aset, alookup, h, ih]

theorem alookup_aset_ne {α : Type} (l : List (Str × α)) (k k' : Str) (v : α)
    (h : k ≠ k') : alookup (aset l k v) k' = alookup l k' := by
  induction l with
  | nil => simp [aset, alookup, h]
  | cons hd tl ih =>
    obtain ⟨k₀, v₀⟩ := hd
    by_cases h₀ : k₀ = k
    · subst h₀
      simp [aset, alookup, h]
    · simp only [aset, if_neg h₀, alookup]
      by_cases h₁ : k₀ = k' <;> simp [h₁, ih]

/-! ## The batched event sender (`src/sender.ts`)

`EventSender` keeps one `PendingBatch` per team URL.  The `setTimeout`
handles are modelled as booleans (`timerSet`, `retryTimerSet`); the
asynchronous `fetch` of `flush` is modelled by moving the popped events to
an `inflight` list (the synchronous prefix of `flush`) and by separate
`resolve…` transitions for the three response cases.  The sender never
inspects the events it carries, so the embedding is generic in the event
type `α`. -/

/-- `PendingBatch` of `src/sender.ts`. -/
structure Batch (α : Type) where
  token : Str
  events : List α
  timerSet : Bool
  retryCount : Nat
  retryTimerSet : Bool
deriving DecidableEq

/-- `MAX_RETRY_DELAY_MS` of `src/sender.ts`. -/
def MAX_RETRY_DELAY_MS : Nat := 60000

/-- `MAX_RETRIES` of `src/sender.ts`. -/
def MAX_RETRIES : Nat := 5

/-- The state of an `EventSender`: per-team batches, suspended teams, the
constructor-clamped parameters, and the set of in-flight ingest requests
(each entry is the team URL and the event list POSTed in its body). -/
structure SenderState (α : Type) where
  batches : List (Str × Batch α)
  suspendedTeams : List Str
  batchIntervalMs : Nat
  maxBatchSize : Nat
  inflight : List (Str × List α)
deriving DecidableEq

/-- The `EventSender` constructor:
`this.maxBatchSize = Math.min(config.max_batch_size, 100)`. -/
def mkSender (α : Type) (batch_interval_ms max_batch_size : Nat) :
    SenderState α :=
  { batches := []
    suspendedTeams := []
    batchIntervalMs := batch_interval_ms
    maxBatchSize := min max_batch_size 100
    inflight := [] }

/-- `EventSender.suspendTeam`: add to the suspended set and delete any
pending batch (clearing its timers). -/
def suspendTeam {α : Type} (s : SenderState α) (teamUrl : Str) :
    SenderState α :=
  { s with
    suspendedTeams :=
      if s.suspendedTeams.contains teamUrl then s.suspendedTeams
      else teamUrl :: s.suspendedTeams
    batches := adel s.batches teamUrl }

/-- The synchronous prefix of `EventSender.flush`: if the team has a
non-empty batch, pop all of its events, clear the batch timer, and issue
the ingest POST (an in-flight request whose body is the popped list).  The
await of `fetch` and the response handling are the `resolve…` functions
below. -/
def flushStart {α : Type} (s : SenderState α) (teamUrl : Str) :
    SenderState α :=
  match alookup s.batches teamUrl with
  | none => s
  | some b =>
    if b.events.length = 0 then s
    else
      { s with
        batches := aset s.batches teamUrl { b with events := [], timerSet := false }
        inflight := s.inflight ++ [(teamUrl, b.events)] }

/-- `EventSender.add`: skip silently when the team is suspended; otherwise
get or create the team's batch, push the event, and either begin a flush
(queue length reached `maxBatchSize`) or make sure a batch timer is
scheduled. -/
def add {α : Type} (s : SenderState α) (teamUrl token : Str) (event : α) :
    SenderState α :=
  if s.suspendedTeams.contains teamUrl then s
  else
    let b := (alookup s.batches teamUrl).getD
      ({ token := token, events := [], timerSet := false, retryCount := 0,
         retryTimerSet := false })
    let b := { b with events := b.events ++ [event] }
    let s' := { s with batches := aset s.batches teamUrl b }
    if s.maxBatchSize ≤ b.events.length then flushStart s' teamUrl
    else if b.timerSet then s'
    else { s' with batches := aset s'.batches teamUrl { b with timerSet := true } }

/-- The retry delay computed by `requeueWithBackoff`:
`Math.min(batchIntervalMs * 2 ** retryCount, MAX_RETRY_DELAY_MS)` where
`retryCount` is the value after the increment. -/
def retryDelayMs {α : Type} (s : SenderState α) (retryCount : Nat) : Nat :=
  min (s.batchIntervalMs * 2 ^ retryCount) MAX_RETRY_DELAY_MS

/-- `EventSender.requeueWithBackoff`: increment `retryCount`; past
`MAX_RETRIES` drop the popped events and reset the counter; otherwise put
the popped events back at the front of the queue and schedule the retry
timer.  (The source mutates the batch object captured at flush time; the
model applies the mutation to the team's current batch, the normal case in
which the map still holds that object.) -/
def requeueWithBackoff {α : Type} (s : SenderState α) (teamUrl : Str)
    (events : List α) : SenderState α :=
  match alookup s.batches teamUrl with
  | none => s
  | some b =>
    let rc := b.retryCount + 1
    if MAX_RETRIES < rc then
      { s with batches := aset s.batches teamUrl { b with retryCount := 0 } }
    else
      let b' : Batch α :=
        { b with retryCount := rc, events := events ++ b.events,
                 retryTimerSet := true }
      { s with batches := aset s.batches teamUrl b' }

/-- Resolution of an in-flight ingest request with HTTP 2xx: remove the
request and reset the team's `retryCount`. -/
def resolveOk {α : Type} (s : SenderState α) (teamUrl : Str) :
    SenderState α :=
  let s' := { s with inflight := adel s.inflight teamUrl }
  match alookup s'.batches teamUrl with
  | none => s'
  | some b =>
    { s' with batches := aset s'.batches teamUrl { b with retryCount := 0 } }

/-- Resolution with HTTP 401: suspend the team (the in-flight batch is
dropped, the pending batch deleted). -/
def resolve401 {α : Type} (s : SenderState α) (teamUrl : Str) :
    SenderState α :=
  suspendTeam { s with inflight := adel s.inflight teamUrl } teamUrl

/-- Resolution with any other non-2xx status or a transport error: the
oldest in-flight request for the team fails and its events are requeued
with backoff. -/
def resolveErr {α : Type} (s : SenderState α) (teamUrl : Str) :
    SenderState α :=
  match alookup s.inflight teamUrl with
  | none => s
  | some events =>
    requeueWithBackoff { s with inflight := adel s.inflight teamUrl }
      teamUrl events

/-- The retry timer firing: `batch.retryTimer = null; this.flush(url)`. -/
def retryFire {α : Type} (s : SenderState α) (teamUrl : Str) :
    SenderState α :=
  match alookup s.batches teamUrl with
  | none => s
  | some b =>
    flushStart
      { s with batches := aset s.batches teamUrl { b with retryTimerSet := false } }
      teamUrl

/-- The batch timer firing: `setTimeout(() => this.flush(url), …)`. -/
def timerFire {α : Type} (s : SenderState α) (teamUrl : Str) :
    SenderState α :=
  match alookup s.batches teamUrl with
  | none => s
  | some b =>
    flushStart
      { s with batches := aset s.batches teamUrl { b with timerSet := false } }
      teamUrl

/-- `EventSender.getPendingCount`: total number of queued (not in-flight)
events over all teams. -/
def getPendingCount {α : Type} (s : SenderState α) : Nat :=
  (s.batches.map (fun b => b.2.events.length)).sum

/-- The queued events of one team (empty when the team has no batch). -/
def queueEvents {α : Type} (s : SenderState α) (teamUrl : Str) : List α :=
  ((alookup s.batches teamUrl).map Batch.events).getD []

/-- One externally-observable sender transition, used to build concrete
execution traces. -/
inductive SOp (α : Type) where
  | add (url token : Str) (e : α)
  | timerFire (url : Str)
  | retryFire (url : Str)
  | resolveOk (url : Str)
  | resolve401 (url : Str)
  | resolveErr (url : Str)

/-- Dispatch one trace operation to the corresponding sender function. -/
def stepOp {α : Type} (s : SenderState α) : SOp α → SenderState α
  | .add url token e => add s url token e
  | .timerFire url => timerFire s url
  | .retryFire url => retryFire s url
  | .resolveOk url => resolveOk s url
  | .resolve401 url => resolve401 s url
  | .resolveErr url => resolveErr s url

/-- Run a list of trace operations from a starting state. -/
def runOps {α : Type} (s : SenderState α) (ops : List (SOp α)) :
    SenderState α :=
  ops.foldl stepOp s

/-! ### Concrete sender traces

Events are numbered by their `add` order.  `tUrl`/`tTok` are an arbitrary
team URL and bearer token. -/

/-- A team URL used by the concrete traces. -/
def tUrl : Str := str "https://team-a.workers.dev"

/-- A bearer token used by the concrete traces. -/
def tTok : Str := str "tok"

/-- `n` consecutive `add` operations whose events are numbered from `k`. -/
def addsOps (k n : Nat) : List (SOp Nat) :=
  (List.range n).map (fun i => SOp.add tUrl tTok (k + i))

/-- The trace behind C3: 599 `add` calls with the test-suite configuration
(`batch_interval_ms = 2000`, `max_batch_size = 10000`, clamped to 100).
Each hundredth `add` starts a flush, so five ingest requests of 100 events
each go in flight; the server then fails all five (HTTP 500 or transport
error), and each failure requeues its batch at the head of the queue. -/
def c3ops : List (SOp Nat) :=
  addsOps 0 100 ++ addsOps 100 100 ++ addsOps 200 100 ++ addsOps 300 100 ++
    addsOps 400 100 ++ addsOps 500 99 ++
    [SOp.resolveErr tUrl, SOp.resolveErr tUrl, SOp.resolveErr tUrl,
     SOp.resolveErr tUrl, SOp.resolveErr tUrl]

/-- The sender state after running `c3ops`. -/
def c3final : SenderState Nat := runOps (mkSender Nat 2000 10000) c3ops

theorem runOps_append {α : Type} (s : SenderState α) (a b : List (SOp α)) :
    runOps s (a ++ b) = runOps (runOps s a) b := by
  simp [runOps, List.foldl_append]

/-- The events numbered `k`, …, `k + 99` (one in-flight batch of `c3ops`). -/
def c3batch (k : Nat) : List Nat := (List.range 100).map (fun i => k + i)

/-- The sender state after `k` of the hundred-`add` rounds of `c3ops`:
an empty queue and the listed in-flight requests. -/
def c3afterPops (infl : List (Str × List Nat)) : SenderState Nat :=
  ⟨[(tUrl, ⟨tTok, [], false, 0, false⟩)], [], 2000, 100, infl⟩

/-- The sender state after all 599 adds of `c3ops`: five full batches in
flight and 99 events queued. -/
def c3s5 : SenderState Nat :=
  ⟨[(tUrl, ⟨tTok, (List.range 99).map (fun i => 500 + i), true, 0, false⟩)],
    [], 2000, 100,
    [(tUrl, c3batch 0), (tUrl, c3batch 100), (tUrl, c3batch 200),
     (tUrl, c3batch 300), (tUrl, c3batch 400)]⟩

set_option maxRecDepth 100000 in
theorem c3step1 : runOps (mkSender Nat 2000 10000) (addsOps 0 100) =
    c3afterPops [(tUrl, c3batch 0)] := by rfl

set_option maxRecDepth 100000 in
theorem c3step2 : runOps (c3afterPops [(tUrl, c3batch 0)]) (addsOps 100 100) =
    c3afterPops [(tUrl, c3batch 0), (tUrl, c3batch 100)] := by rfl

set_option maxRecDepth 100000 in
theorem c3step3 :
    runOps (c3afterPops [(tUrl, c3batch 0), (tUrl, c3batch 100)])
      (addsOps 200 100) =
    c3afterPops [(tUrl, c3batch 0), (tUrl, c3batch 100), (tUrl, c3batch 200)] := by
  rfl

set_option maxRecDepth 100000 in
theorem c3step4 :
    runOps
      (c3afterPops
        [(tUrl, c3batch 0), (tUrl, c3batch 100), (tUrl, c3batch 200)])
      (addsOps 300 100) =
    c3afterPops
      [(tUrl, c3batch 0), (tUrl, c3batch 100), (tUrl, c3batch 200),
       (tUrl, c3batch 300)] := by
  rfl

set_option maxRecDepth 100000 in
theorem c3step5 :
    runOps
      (c3afterPops
        [(tUrl, c3batch 0), (tUrl, c3batch 100), (tUrl, c3batch 200),
         (tUrl, c3batch 300)])
      (addsOps 400 100) =
    c3afterPops
      [(tUrl, c3batch 0), (tUrl, c3batch 100), (tUrl, c3batch 200),
       (tUrl, c3batch 300), (tUrl, c3batch 400)] := by
  rfl

set_option maxRecDepth 100000 in
theorem c3step6 :
    runOps
      (c3afterPops
        [(tUrl, c3batch 0), (tUrl, c3batch 100), (tUrl, c3batch 200),
         (tUrl, c3batch 300), (tUrl, c3batch 400)])
      (addsOps 500 99) = c3s5 := by
  rfl

/-- The trace behind C7: five `add` calls fill the queue to
`max_batch_size = 5` and start a flush; the request fails, requeuing the
five events and scheduling a retry; then one more `add` arrives while the
retry is pending. -/
def c7ops : List (SOp Nat) :=
  ((List.range 5).map (fun i => SOp.add tUrl tTok i)) ++
    [SOp.resolveErr tUrl, SOp.add tUrl tTok 5]

/-- The sender state after running `c7ops`. -/
def c7final : SenderState Nat := runOps (mkSender Nat 10000 5) c7ops

/-- The trace behind C8 (the test-suite chunking scenario,
`max_batch_size = 5`): five `add` calls start a flush of events 0–4; four
more events queue up; the request fails and requeues, leaving a queue of
nine; the retry timer fires; then five further `add` calls start a second
flush while the first retry request is still in flight. -/
def c8ops : List (SOp Nat) :=
  ((List.range 9).map (fun i => SOp.add tUrl tTok i)) ++
    [SOp.resolveErr tUrl, SOp.retryFire tUrl] ++
    ((List.range 5).map (fun i => SOp.add tUrl tTok (9 + i)))

/-- The sender state after running `c8ops`. -/
def c8final : SenderState Nat := runOps (mkSender Nat 10000 5) c8ops

set_option maxRecDepth 100000 in
/-- C3 — "For any sequence of add() calls on the sender, the length of
every per-team queue never exceeds max_queue_size = 500; when a team's
queue is already at 500, the incoming (newest) event is dropped and the
queue is unchanged."  `EventSender.add` has no queue cap at all: after the
`c3ops` trace (599 adds, five failed in-flight batches requeued) the
team's queue holds 599 events, above the claimed bound of 500, and no
incoming event was ever dropped.  This matches the behaviour the test
suite's "caps queue size" test rejects. -/
theorem c3_queue_exceeds_500 :
    (queueEvents c3final tUrl).length = 599 ∧
      500 < (queueEvents c3final tUrl).length := by
  have hfin :
      c3final =
        runOps c3s5
          [SOp.resolveErr tUrl, SOp.resolveErr tUrl, SOp.resolveErr tUrl,
           SOp.resolveErr tUrl, SOp.resolveErr tUrl] := by
    show runOps (mkSender Nat 2000 10000) c3ops = _
    unfold c3ops
    rw [runOps_append, runOps_append, runOps_append, runOps_append,
      runOps_append, runOps_append, c3step1, c3step2, c3step3, c3step4,
      c3step5, c3step6]
  have h : (queueEvents c3final tUrl).length = 599 := by
    rw [hfin]; rfl
  exact ⟨h, by rw [h]; decide⟩

set_option maxRecDepth 100000 in
/-- C7 — the backoff requeue itself matches the claim, but its last
conjunct ("while that retry is pending, queue fill does not trigger an
auto-flush") does not hold: in `c7final` the retry timer is still set, yet
the sixth `add` started a flush anyway — the queue was popped into a new
in-flight request `[0,…,5]` and the pending count dropped to zero.  This is
the behaviour the test suite's "does not trigger flush during retry
backoff" test rejects. -/
theorem c7_autoflush_during_backoff :
    (alookup c7final.batches tUrl).map Batch.retryTimerSet = some true ∧
      c7final.inflight = [(tUrl, [0, 1, 2, 3, 4, 5])] ∧
      getPendingCount c7final = 0 := by
  refine ⟨?_, ?_, ?_⟩ <;> decide

set_option maxRecDepth 100000 in
/-- C8 — "a flush pops at most max_batch_size events from the queue per
request, and flush is reentrancy-guarded so two flushes cannot run
concurrently for the same team."  `EventSender.flush` pops the whole
queue: in `c8final` the retry flush issued a single ingest request of nine
events although `maxBatchSize = 5`, and a second request went in flight for
the same team while the first was still unresolved.  (The constructor
clamp `maxBatchSize = min(config, 100)` does hold.)  This is the behaviour
the test suite's "chunks large queues into maxBatchSize per request" test
rejects. -/
theorem c8_flush_pops_whole_queue :
    c8final.inflight.map (fun p => p.2.length) = [9, 5] ∧
      c8final.inflight.map Prod.fst = [tUrl, tUrl] ∧
      c8final.maxBatchSize = 5 ∧ 5 < 9 := by
  refine ⟨?_, ?_, ?_, ?_⟩ <;> decide

/-! ## Tracked files and state persistence (`src/state.ts`, `src/tracer.ts`)

`TrackedFile` and the session parser state are the `src/types.ts` records;
`saveStateTracked` is the tracked-file update loop of `Tracer.saveState`
(the remainder of that method serialises the state and the git cache to
disk, which does not touch any tracked file).  The tracer holds an
in-memory `readHeads` map; `Tracer.saveState` commits a read head to the
persisted `byte_offset` only when `sender.getPendingCount()` reports no
queued events. -/

/-- Cached git remote data (`GitRemoteEntry` of `src/types.ts`). -/
structure GitRemoteEntry where
  name : Str
  remoteUrl : Str
deriving DecidableEq

/-- `TrackedFile` of `src/types.ts`.  `sub_dir_repos` maps subdirectory
name → repo name for parent-directory sessions. -/
structure TrackedFile where
  byte_offset : Nat
  session_id : Str
  matched_teams : List Str
  matched_repo : Str
  turn_number : Nat
  files_touched : List Str
  cwd : Option Str
  sub_dir_repos : Option (List (Str × Str))
deriving DecidableEq

/-- `SessionParserState` of `src/types.ts`.  The source's flag fields are
optional and prefixed with an underscore (`_sessionStartEmitted`,
`_gitBranch`, `_cwd`, `_model`, `_branchUpdateEmitted`,
`_modelUpdateEmitted`); an absent flag behaves as `false`, so they are
modelled as plain booleans/options. -/
structure SessionParserState where
  turnNumber : Nat
  filesTouched : List Str
  sessionStartEmitted : Bool
  gitBranch : Option Str
  cwdSeen : Option Str
  model : Option Str
  branchUpdateEmitted : Bool
  modelUpdateEmitted : Bool
deriving DecidableEq

/-- The fresh parser state the tracer creates for a new file
(`{ turnNumber: 0, filesTouched: new Set() }`). -/
def freshSessionState : SessionParserState :=
  { turnNumber := 0, filesTouched := [], sessionStartEmitted := false,
    gitBranch := none, cwdSeen := none, model := none,
    branchUpdateEmitted := false, modelUpdateEmitted := false }

/-- `Set.add` on the files-touched set. -/
def setAdd (l : List Str) (x : Str) : List Str :=
  if l.contains x then l else l ++ [x]

/-- `createTrackedFile` of `src/state.ts`. -/
def createTrackedFile (sessionId : Str) (cwd : Option Str)
    (matchedTeams : List Str) (matchedRepo : Str) : TrackedFile :=
  { byte_offset := 0, session_id := sessionId, matched_teams := matchedTeams,
    matched_repo := matchedRepo, turn_number := 0, files_touched := [],
    cwd := cwd, sub_dir_repos := none }

/-- `updateFromParserState` of `src/state.ts`. -/
def updateFromParserState (tracked : TrackedFile)
    (st : SessionParserState) : TrackedFile :=
  { tracked with turn_number := st.turnNumber,
                 files_touched := st.filesTouched }

/-- `toSessionParserState` of `src/state.ts` (restores a parser state from
a persisted tracked file after a daemon restart). -/
def toSessionParserState (tracked : TrackedFile) : SessionParserState :=
  { freshSessionState with turnNumber := tracked.turn_number,
                           filesTouched := tracked.files_touched }

/-- The tracer state relevant to persistence: the persisted tracked-file
table, the in-memory session parser states, and the in-memory read
heads. -/
structure TracerState where
  tracked_files : List (Str × TrackedFile)
  sessionStates : List (Str × SessionParserState)
  readHeads : List (Str × Nat)
deriving DecidableEq

/-- The tracked-file update loop of `Tracer.saveState` (`src/tracer.ts`):
for every session parser state, refresh the tracked file's turn counter
and files-touched list, and commit the in-memory read head to the
persisted `byte_offset` only when the sender reports no pending events. -/
def saveStateTracked {α : Type} (sender : SenderState α) (t : TracerState) :
    TracerState :=
  let hasPending : Bool := decide (0 < getPendingCount sender)
  let tracked_files :=
    t.sessionStates.foldl
      (fun acc (p : Str × SessionParserState) =>
        match alookup acc p.1 with
        | none => acc
        | some tf =>
          let tf := updateFromParserState tf p.2
          let tf :=
            if hasPending then tf
            else
              match alookup t.readHeads p.1 with
              | none => tf
              | some rh => { tf with byte_offset := rh }
          aset acc p.1 tf)
      t.tracked_files
  { t with tracked_files := tracked_files }

/-- The persisted byte offset of one journal file. -/
def byteOffsetOf (t : TracerState) (filePath : Str) : Option Nat :=
  (alookup t.tracked_files filePath).map TrackedFile.byte_offset

theorem alookup_mem {α : Type} {l : List (Str × α)} {k : Str} {v : α}
    (h : alookup l k = some v) : (k, v) ∈ l := by
  induction l with
  | nil => simp [alookup] at h
  | cons hd tl ih =>
    obtain ⟨k₀, v₀⟩ := hd
    by_cases h₀ : k₀ = k
    · subst h₀
      simp [alookup] at h
      simp [h]
    · simp only [alookup, if_neg h₀] at h
      exact List.mem_cons_of_mem _ (ih h)

/-- When the sender has no queued events at all, every team's queue is
empty. -/
theorem queueEvents_empty_of_pending_zero {α : Type} {s : SenderState α}
    (h : getPendingCount s = 0) (url : Str) : queueEvents s url = [] := by
  unfold queueEvents
  cases hb : alookup s.batches url with
  | none => simp
  | some b =>
    have hmem := alookup_mem hb
    have hz : b.events.length = 0 := by
      unfold getPendingCount at h
      rw [List.sum_eq_zero_iff] at h
      exact h _ (List.mem_map_of_mem _ hmem)
    simp [List.length_eq_zero.mp hz]

/-- `updateFromParserState` never touches the byte offset. -/
theorem updateFromParserState_byte_offset (tf : TrackedFile)
    (st : SessionParserState) :
    (updateFromParserState tf st).byte_offset = tf.byte_offset := rfl

/-- The save loop preserves every byte offset while events are pending. -/
theorem saveLoop_byte_offset_of_pending {α : Type} {sender : SenderState α}
    (hp : 0 < getPendingCount sender)
    (ss : List (Str × SessionParserState)) (rh : List (Str × Nat))
    (acc : List (Str × TrackedFile)) (fp : Str) :
    (alookup
        (ss.foldl
          (fun acc (p : Str × SessionParserState) =>
            match alookup acc p.1 with
            | none => acc
            | some tf =>
              let tf := updateFromParserState tf p.2
              let tf :=
                if (decide (0 < getPendingCount sender) : Bool) then tf
                else
                  match alookup rh p.1 with
                  | none => tf
                  | some r => { tf with byte_offset := r }
              aset acc p.1 tf)
          acc)
        fp).map TrackedFile.byte_offset =
      (alookup acc fp).map TrackedFile.byte_offset := by
  induction ss generalizing acc with
  | nil => rfl
  | cons hd tl ih =>
    simp only [List.foldl_cons]
    rw [ih]
    cases htf : alookup acc hd.1 with
    | none => simp [htf]
    | some tf =>
      simp only [htf, decide_eq_true hp]
      by_cases hfp : hd.1 = fp
      · subst hfp
        rw [alookup_aset_self, htf]
        rfl
      · rw [alookup_aset_ne _ _ _ _ hfp]

/-- A state save with queued events leaves every byte offset unchanged. -/
theorem saveStateTracked_byteOffset_of_pending {α : Type}
    {sender : SenderState α} (hp : 0 < getPendingCount sender)
    (t : TracerState) (fp : Str) :
    byteOffsetOf (saveStateTracked sender t) fp = byteOffsetOf t fp := by
  unfold byteOffsetOf saveStateTracked
  exact saveLoop_byte_offset_of_pending hp t.sessionStates t.readHeads
    t.tracked_files fp

/-- C1 — "For every tracked journal file, the persisted byte_offset is
advanced only when the sender confirms that no events derived from that
file are still pending for any team in matched_teams; in particular, after
processing new bytes whose events have not yet been acknowledged, a state
save leaves byte_offset unchanged."  `Tracer.saveState` guards the commit
of `readHeads` into `byte_offset` by `sender.getPendingCount() > 0`:
whenever any event is still queued (in particular every event of this file
not yet handed to a successful POST), a save leaves every persisted byte
offset unchanged; and a save that changes some byte offset can only happen
when the pending count is zero, i.e. when every team's queue — including
each team of the file's `matched_teams` — holds no events at all. -/
theorem c1_offset_only_advances_without_pending {α : Type}
    (sender : SenderState α) (t : TracerState) (fp : Str) :
    (0 < getPendingCount sender →
      byteOffsetOf (saveStateTracked sender t) fp = byteOffsetOf t fp) ∧
    (byteOffsetOf (saveStateTracked sender t) fp ≠ byteOffsetOf t fp →
      getPendingCount sender = 0 ∧
        ∀ url, queueEvents sender url = []) := by
  constructor
  · intro hp
    exact saveStateTracked_byteOffset_of_pending hp t fp
  · intro hchanged
    have hz : getPendingCount sender = 0 := by
      by_contra hnz
      exact hchanged
        (saveStateTracked_byteOffset_of_pending (Nat.pos_of_ne_zero hnz) t fp)
    exact ⟨hz, queueEvents_empty_of_pending_zero hz⟩

/-- Witness for C1: a sender with one queued event (pending count 1) and a
tracer state whose freshly created tracked file sits at byte offset 0 with
an in-memory read head of 7 — the save leaves the persisted offset
unchanged. -/
theorem c1_witness :
    0 < getPendingCount
        (⟨[(tUrl, ⟨tTok, [0], false, 0, false⟩)], [], 2000, 100, []⟩ :
          SenderState Nat) ∧
      byteOffsetOf
          (saveStateTracked
            (⟨[(tUrl, ⟨tTok, [0], false, 0, false⟩)], [], 2000, 100, []⟩ :
              SenderState Nat)
            ⟨[(str "f", createTrackedFile (str "S") (some (str "/w/r"))
                [tUrl] (str "r"))],
              [(str "f", freshSessionState)], [(str "f", 7)]⟩)
          (str "f") =
        byteOffsetOf
          ⟨[(str "f", createTrackedFile (str "S") (some (str "/w/r"))
              [tUrl] (str "r"))],
            [(str "f", freshSessionState)], [(str "f", 7)]⟩
          (str "f") :=
  ⟨by decide,
    (c1_offset_only_advances_without_pending _ _ _).1 (by decide)⟩

/-! ## The journal reader step of `Tracer.processFile` (`src/tracer.ts`)

`processFile` reads the bytes after the current offset, decodes them as
UTF-8 (`newContent`), splits on `"\n"`, hands every element of the split —
including a trailing partial line — to the adapter, and then advances the
in-memory read head by `Buffer.byteLength(newContent, "utf-8")`, the byte
length of everything it read.  (A `bytesProcessed` accumulator that counts
per-line byte lengths is computed in the loop but never used.) -/

/-- The record candidates handed to the adapter:
`newContent.split("\n")` (blank elements are skipped by the
`line.trim()` guard before parsing, but every non-blank element — also a
trailing partial line — is parsed). -/
def journalLines (newContent : Str) : List Str := splitNl newContent

/-- The read-head advance of `Tracer.processFile`:
`readHeads.set(filePath, startOffset + Buffer.byteLength(newContent))`. -/
def newReadHead (startOffset : Nat) (newContent : Str) : Nat :=
  startOffset + utf8Len newContent

/-- Modelled from the spec (§4.1), for comparison with `newReadHead`: only
complete newline-terminated records count, so the advance is the sum of
the UTF-8 byte lengths of the yielded records plus one separator byte
each; the trailing remainder of the split (the partial line, or the empty
string after a final newline) is not counted. -/
def specReadAdvance (startOffset : Nat) (newContent : Str) : Nat :=
  startOffset +
    (((splitNl newContent).dropLast).map (fun r => utf8Len r + 1)).sum

/-- The new-content sample behind C4: one complete record `one` and a
trailing partial record `tw` whose terminating newline has not been
written yet. -/
def c4content : Str := str "one\ntw"

/-- C4 — "a trailing partial line with no terminating newline is not
yielded as a record, and its bytes are not counted toward offset
advancement: the read head advances by exactly the UTF-8 byte length of
the complete (newline-terminated) records consumed".  The code does
neither: on `c4content` (a complete 3-byte record plus a 2-byte partial
line) the partial line `tw` is handed to the adapter as a record
candidate, and the read head advances by all 6 bytes instead of the 4
bytes of the complete record plus separator — so the partial line's bytes
are skipped on the next read and a record split across two reads is lost.
-/
theorem c4_partial_line_counted :
    journalLines c4content = [str "one", str "tw"] ∧
      newReadHead 0 c4content = 6 ∧
      specReadAdvance 0 c4content = 4 ∧
      newReadHead 0 c4content ≠ specReadAdvance 0 c4content := by
  refine ⟨?_, ?_, ?_, ?_⟩ <;> decide

/-! ## Events, the repo matcher, enrichment and per-event routing

`IngestEvent` is the event record of `src/types.ts` (all variant fields
optional).  `matchFileToRepo` and `stripFilePath` are from
`src/matcher.ts`; `enrichLineData` from `src/enrichment.ts` (the regex
battery that recognises a declaration on one line is abstracted as the
`matchLine` parameter, returning the first capture group of the first
matching pattern); `routeEvent` is the per-event body of the dispatch loop
of `Tracer.processFile` (`src/tracer.ts`), returning `none` exactly when
the loop `continue`s without enqueuing the event to any team. -/

/-- `IngestEvent` of `src/types.ts`.  The numeric `session_end` payload
fields (cost, durations, token counts) are carried opaquely and never
computed with, so they are modelled as `Option Nat`. -/
structure IngestEvent where
  session_id : Str
  timestamp : Str
  event_type : Str
  user_id : Str
  repo_name : Str
  agent_type : Str
  cwd : Option Str
  git_branch : Option Str
  git_remote_url : Option Str
  model : Option Str
  agent_version : Option Str
  hostname : Option Str
  device_name : Option Str
  is_remote : Option Bool
  tool_name : Option Str
  file_path : Option Str
  operation : Option Str
  start_line : Option Nat
  end_line : Option Nat
  function_name : Option Str
  bash_command : Option Str
  old_string : Option Str
  new_string : Option Str
  prompt_text : Option Str
  turn_number : Option Nat
  response_text : Option Str
  response_type : Option Str
  total_cost_usd : Option Nat
  duration_ms : Option Nat
  num_turns : Option Nat
  total_input_tokens : Option Nat
  total_output_tokens : Option Nat
  cache_creation_tokens : Option Nat
  cache_read_tokens : Option Nat
  result_summary : Option Str
  files_touched : Option (List Str)
deriving DecidableEq

/-- An event with every optional field absent, used as the base of event
literals. -/
def emptyEvent : IngestEvent :=
  ⟨[], [], [], [], [], [], none, none, none, none, none, none, none, none,
    none, none, none, none, none, none, none, none, none, none, none, none,
    none, none, none, none, none, none, none, none, none, none⟩

/-- The `event_type` tag `"session_start"`. -/
def etSessionStart : Str := str "session_start"

/-- The `event_type` tag `"session_end"`. -/
def etSessionEnd : Str := str "session_end"

/-- The `event_type` tag `"file_op"`. -/
def etFileOp : Str := str "file_op"

/-- The `event_type` tag `"prompt"`. -/
def etPrompt : Str := str "prompt"

/-- The `event_type` tag `"agent_response"`. -/
def etAgentResponse : Str := str "agent_response"

/-- `s.startsWith(pre)` of JavaScript. -/
def startsWith (s pre : Str) : Bool := pre.isPrefixOf s

/-- `cwd.endsWith("/") ? cwd : cwd + "/"` — the prefix used to strip file
paths. -/
def cwdPrefix (cwd : Str) : Str :=
  if cwd.getLast? = some '/' then cwd else cwd ++ str "/"

/-- `s.indexOf(c)` for a single character, as an option instead of `-1`. -/
def indexOfChar : Str → Char → Option Nat
  | [], _ => none
  | x :: xs, c => if x = c then some 0 else (indexOfChar xs c).map (· + 1)

/-- `stripFilePath` of `src/matcher.ts`: strip an absolute path to a
cwd-relative one; sentinel values such as `(bash)` pass through
unchanged because they do not start with `/`. -/
def stripFilePath (filePath : Str) (cwd : Option Str) : Str :=
  match truthy cwd with
  | none => filePath
  | some c =>
    if ¬ startsWith filePath (str "/") then filePath
    else
      let p := cwdPrefix c
      if startsWith filePath p then filePath.drop p.length else filePath

/-- `matchFileToRepo` of `src/matcher.ts`: which subdirectory repo a file
path belongs to in a parent-directory session.  `none` unless the path is
absolute, lies under the cwd, and its top-level directory is a registered
subdirectory. -/
def matchFileToRepo (filePath cwd : Str) (subDirRepos : List (Str × Str)) :
    Option Str :=
  if ¬ startsWith filePath (str "/") then none
  else
    let p := cwdPrefix cwd
    if ¬ startsWith filePath p then none
    else
      let relative := filePath.drop p.length
      let topDir :=
        match indexOfChar relative '/' with
        | some i => if 0 < i then relative.take i else relative
        | none => relative
      alookup subDirRepos topDir

/-- `findEnclosingFunction` of `src/enrichment.ts`: walk upward from a
line index; the first line on which the pattern battery produces a capture
wins.  `matchLine` abstracts the fixed regex battery. -/
def findEnclosingFunction (matchLine : Str → Option Str)
    (lines : List Str) : Nat → Option Str
  | 0 => matchLine ((lines.get? 0).getD [])
  | i + 1 =>
    match matchLine ((lines.get? (i + 1)).getD []) with
    | some name => some name
    | none => findEnclosingFunction matchLine lines i

/-- `path.resolve(cwd, p)` for the two shapes that occur: an absolute `p`
is returned unchanged, a relative one is joined to the cwd. -/
def resolvePath (cwd p : Str) : Str :=
  if startsWith p (str "/") then p else cwdPrefix cwd ++ p

/-- `enrichLineData` of `src/enrichment.ts`: resolve the event's transient
new-string to a line range in the local file and detect the enclosing
declaration.  Only `start_line`, `end_line` and `function_name` are ever
written.  (`fs` models `readFileSync`: the decoded content of a path, or
`none` when unreadable.) -/
def enrichLineData (fs : Str → Option Str) (matchLine : Str → Option Str)
    (cwd : Option Str) (e : IngestEvent) : IngestEvent :=
  match truthy e.file_path, truthy cwd with
  | some fp, some c =>
    if e.tool_name = some (str "Write") then { e with start_line := some 1 }
    else
      match truthy e.new_string with
      | none => e
      | some newString =>
        match fs (resolvePath c fp) with
        | none => e
        | some content =>
          let lines := splitNl content
          match indexOfSub content newString with
          | none => e
          | some idx =>
            let startLine := lineCount (content.take idx)
            let endLine := startLine + lineCount newString - 1
            { e with
              start_line := some startLine
              end_line := some endLine
              function_name :=
                findEnclosingFunction matchLine lines (startLine - 1) }
  | _, _ => e

/-- The strip loop of `Tracer.processFile` for parent-directory sessions:
the first subdirectory entry whose repo is the event's routed repo and
whose directory prefixes the file path wins. -/
def stripSubDirLoop (m : List (Str × Str)) (eventRepoName p fp : Str) :
    Option Str :=
  match m with
  | [] => none
  | (subDir, repo) :: rest =>
    if repo = eventRepoName ∧ startsWith fp (p ++ subDir ++ str "/") then
      some (fp.drop (p ++ subDir ++ str "/").length)
    else stripSubDirLoop rest eventRepoName p fp

/-- The enrichment guard of the dispatch loop:
`if (event.event_type === "file_op" && event.new_string &&
event.file_path) enrichLineData(event, tracked.cwd)`. -/
def maybeEnrich (fs : Str → Option Str) (matchLine : Str → Option Str)
    (tracked : TrackedFile) (e : IngestEvent) : IngestEvent :=
  if e.event_type = etFileOp ∧ truthyB e.new_string ∧ truthyB e.file_path
  then enrichLineData fs matchLine tracked.cwd e
  else e

/-- The repo-resolution step of the dispatch loop: `eventRepoName` starts
as `tracked.matched_repo`; in a parent-directory session a file-bearing
event is re-routed to its subdirectory's repo, and a `file_op` whose file
matches no registered subdirectory is dropped (`none` = the loop's
`continue`). -/
def routeRepoStep (tracked : TrackedFile) (e : IngestEvent) : Option Str :=
  match tracked.sub_dir_repos with
  | none => some tracked.matched_repo
  | some m =>
    match truthy e.file_path with
    | none => some tracked.matched_repo
    | some fp =>
      match matchFileToRepo fp (tracked.cwd.getD []) m with
      | some fileRepo => some fileRepo
      | none =>
        if e.event_type = etFileOp then none
        else some tracked.matched_repo

/-- The composite-session-id step:
`if (subDirMap && eventRepoName !== tracked.matched_repo)
event.session_id = session_id + ":" + eventRepoName`. -/
def applyCompositeId (tracked : TrackedFile) (eventRepoName : Str)
    (e : IngestEvent) : IngestEvent :=
  if tracked.sub_dir_repos.isSome ∧ eventRepoName ≠ tracked.matched_repo then
    { e with session_id := e.session_id ++ str ":" ++ eventRepoName }
  else e

/-- The file-path stripping step: in a parent-directory session the
matched subdirectory prefix is removed (`stripSubDirLoop`); otherwise
`stripFilePath` strips the cwd prefix. -/
def applyPathStrip (tracked : TrackedFile) (eventRepoName : Str)
    (e : IngestEvent) : IngestEvent :=
  match tracked.sub_dir_repos with
  | some m =>
    match truthy e.file_path with
    | some fp =>
      let p := cwdPrefix (tracked.cwd.getD [])
      match stripSubDirLoop m eventRepoName p fp with
      | some stripped => { e with file_path := some stripped }
      | none => e
    | none => e
  | none =>
    match truthy e.file_path with
    | some fp => { e with file_path := some (stripFilePath fp tracked.cwd) }
    | none => e

/-- The files-touched stripping step:
`event.files_touched = event.files_touched.map(f => stripFilePath(f, cwd))`. -/
def applyFilesTouched (tracked : TrackedFile) (e : IngestEvent) :
    IngestEvent :=
  match e.files_touched with
  | some fts =>
    let stripped := fts.map (fun f => stripFilePath f tracked.cwd)
    { e with files_touched := some stripped }
  | none => e

/-- The git-remote attachment step for `session_start` events. -/
def applyGitRemote (gitCache : Str → Option GitRemoteEntry)
    (tracked : TrackedFile) (e : IngestEvent) : IngestEvent :=
  if e.event_type = etSessionStart ∧ truthyB tracked.cwd then
    match gitCache (tracked.cwd.getD []) with
    | some entry =>
      if entry.remoteUrl ≠ [] then
        { e with git_remote_url := some entry.remoteUrl }
      else e
    | none => e
  else e

/-- The per-event body of the dispatch loop of `Tracer.processFile`
(`src/tracer.ts`): line-level enrichment, parent-directory repo
resolution (dropping unroutable file-ops), composite session ids, file
path stripping, repo name fill-in and git remote attachment, in the
source's order.  Returns `none` exactly when the loop `continue`s, in
which case the event is never handed to `sender.add` for any team. -/
def routeEvent (fs : Str → Option Str) (matchLine : Str → Option Str)
    (gitCache : Str → Option GitRemoteEntry) (tracked : TrackedFile)
    (e : IngestEvent) : Option IngestEvent :=
  let e1 := maybeEnrich fs matchLine tracked e
  match routeRepoStep tracked e1 with
  | none => none
  | some eventRepoName =>
    let e2 := applyCompositeId tracked eventRepoName e1
    let e3 := applyPathStrip tracked eventRepoName e2
    let e4 := applyFilesTouched tracked e3
    let e5 := { e4 with repo_name := eventRepoName }
    some (applyGitRemote gitCache tracked e5)

theorem truthy_of_ne_nil {s : Str} (h : s ≠ []) : truthy (some s) = some s := by
  unfold truthy
  cases s with
  | nil => simp at h
  | cons c cs => rfl

/-- `enrichLineData` writes only `start_line`, `end_line` and
`function_name`; every routing-relevant field is preserved. -/
theorem enrichLineData_preserves (fs matchLine : Str → Option Str)
    (cwd : Option Str) (e : IngestEvent) :
    (enrichLineData fs matchLine cwd e).file_path = e.file_path ∧
      (enrichLineData fs matchLine cwd e).session_id = e.session_id ∧
      (enrichLineData fs matchLine cwd e).event_type = e.event_type ∧
      (enrichLineData fs matchLine cwd e).files_touched = e.files_touched ∧
      (enrichLineData fs matchLine cwd e).repo_name = e.repo_name := by
  unfold enrichLineData
  refine ⟨?_, ?_, ?_, ?_, ?_⟩ <;>
    · repeat' split
      all_goals rfl

theorem indexOfChar_append_not_mem {d : Str} (h : '/' ∉ d) (rest : Str) :
    indexOfChar (d ++ '/' :: rest) '/' = some d.length := by
  induction d with
  | nil => simp [indexOfChar]
  | cons c cs ih =>
    simp only [List.mem_cons, not_or] at h
    simp only [List.cons_append, indexOfChar, if_neg (Ne.symm h.1)]
    rw [show cs.append ('/' :: rest) = cs ++ '/' :: rest from rfl, ih h.2]
    rfl

/-- In a parent-directory session, a file path of the shape
`cwdPrefix ++ subdir ++ "/" ++ rest` resolves to the subdirectory's
repo. -/
theorem matchFileToRepo_under_subdir {cwd d rest r : Str}
    {m : List (Str × Str)} {ct : Str} (hcwd : cwd = '/' :: ct)
    (hd : '/' ∉ d) (hdne : d ≠ []) (hlk : alookup m d = some r) :
    matchFileToRepo (cwdPrefix cwd ++ d ++ str "/" ++ rest) cwd m = some r := by
  have hp : ∃ pt, cwdPrefix cwd = '/' :: pt := by
    unfold cwdPrefix
    subst hcwd
    split
    · exact ⟨ct, rfl⟩
    · exact ⟨ct ++ str "/", rfl⟩
  obtain ⟨pt, hpt⟩ := hp
  have h1 : startsWith (cwdPrefix cwd ++ d ++ str "/" ++ rest) (str "/") = true := by
    rw [hpt]
    simp [startsWith, str, List.isPrefixOf]
  have h2 : startsWith (cwdPrefix cwd ++ d ++ str "/" ++ rest) (cwdPrefix cwd) = true := by
    unfold startsWith
    rw [List.isPrefixOf_iff_prefix, List.append_assoc, List.append_assoc]
    exact List.prefix_append _ _
  have h3 : (cwdPrefix cwd ++ d ++ str "/" ++ rest).drop (cwdPrefix cwd).length
      = d ++ '/' :: rest := by
    rw [List.append_assoc, List.append_assoc, List.drop_left]
    simp [str]
  have hdl : 0 < d.length := List.length_pos.mpr hdne
  unfold matchFileToRepo
  simp only [h1, h2, h3, not_true, if_false, ite_false, ite_true, if_true,
    eq_self_iff_true, not_true_eq_false, Bool.true_eq_false]
  rw [indexOfChar_append_not_mem hd rest]
  simp only [hdl, if_true, ite_true]
  rw [List.take_left]
  exact hlk

/-- The strip loop strips the matched subdirectory prefix when the
subdirectories that map to the routed repo all equal `d`. -/
theorem stripSubDirLoop_strips {r d p rest : Str} {m : List (Str × Str)}
    (huniq : ∀ pr ∈ m, pr.2 = r → pr.1 = d) (hmem : (d, r) ∈ m) :
    stripSubDirLoop m r p (p ++ d ++ str "/" ++ rest) = some rest := by
  induction m with
  | nil => simp at hmem
  | cons hd tl ih =>
    obtain ⟨d', r'⟩ := hd
    by_cases hr : r' = r
    · have hd' : d' = d := huniq (d', r') (List.mem_cons_self _ _) hr
      have hsw : startsWith (p ++ d ++ str "/" ++ rest) (p ++ d' ++ str "/") = true := by
        rw [hd']
        unfold startsWith
        rw [List.isPrefixOf_iff_prefix]
        exact List.prefix_append _ _
      unfold stripSubDirLoop
      rw [if_pos ⟨hr, hsw⟩, hd']
      rw [List.drop_left]
    · unfold stripSubDirLoop
      have hcond :
          ¬ (r' = r ∧
            startsWith (p ++ d ++ str "/" ++ rest) (p ++ d' ++ str "/") = true) := by
        intro hcontra
        exact hr hcontra.1
      rw [if_neg hcond]
      refine ih (fun pr hpr hr2 => huniq pr (List.mem_cons_of_mem _ hpr) hr2) ?_
      rcases List.mem_cons.mp hmem with heq | hmem2
      · cases heq
        exact absurd rfl hr
      · exact hmem2

/-- The enrichment guard preserves every routing-relevant field. -/
theorem maybeEnrich_preserves (fs matchLine : Str → Option Str)
    (tracked : TrackedFile) (e : IngestEvent) :
    (maybeEnrich fs matchLine tracked e).file_path = e.file_path ∧
      (maybeEnrich fs matchLine tracked e).session_id = e.session_id ∧
      (maybeEnrich fs matchLine tracked e).event_type = e.event_type ∧
      (maybeEnrich fs matchLine tracked e).files_touched = e.files_touched := by
  unfold maybeEnrich
  split
  · obtain ⟨h1, h2, h3, h4, _⟩ :=
      enrichLineData_preserves fs matchLine tracked.cwd e
    exact ⟨h1, h2, h3, h4⟩
  · exact ⟨rfl, rfl, rfl, rfl⟩

/-- The composite-id step writes only `session_id`, by the stated rule. -/
theorem applyCompositeId_spec (tracked : TrackedFile) (rn : Str)
    (e : IngestEvent) :
    (applyCompositeId tracked rn e).session_id =
        (if tracked.sub_dir_repos.isSome ∧ rn ≠ tracked.matched_repo then
          e.session_id ++ str ":" ++ rn
        else e.session_id) ∧
      (applyCompositeId tracked rn e).file_path = e.file_path ∧
      (applyCompositeId tracked rn e).event_type = e.event_type ∧
      (applyCompositeId tracked rn e).files_touched = e.files_touched := by
  unfold applyCompositeId
  split <;> exact ⟨rfl, rfl, rfl, rfl⟩

/-- In a parent-directory session the strip step replaces the file path by
the strip loop's result and touches nothing else. -/
theorem applyPathStrip_subdir {tracked : TrackedFile} {m : List (Str × Str)}
    (hsub : tracked.sub_dir_repos = some m) (rn : Str) {e : IngestEvent}
    {fp stripped : Str} (hfp : truthy e.file_path = some fp)
    (hstrip :
      stripSubDirLoop m rn (cwdPrefix (tracked.cwd.getD [])) fp =
        some stripped) :
    (applyPathStrip tracked rn e).file_path = some stripped ∧
      (applyPathStrip tracked rn e).session_id = e.session_id ∧
      (applyPathStrip tracked rn e).event_type = e.event_type ∧
      (applyPathStrip tracked rn e).files_touched = e.files_touched := by
  unfold applyPathStrip
  simp only [hsub, hfp, hstrip]
  refine ⟨?_, ?_, ?_, ?_⟩ <;> trivial

/-- The files-touched step writes only `files_touched`. -/
theorem applyFilesTouched_preserves (tracked : TrackedFile)
    (e : IngestEvent) :
    (applyFilesTouched tracked e).file_path = e.file_path ∧
      (applyFilesTouched tracked e).session_id = e.session_id ∧
      (applyFilesTouched tracked e).event_type = e.event_type := by
  refine ⟨?_, ?_, ?_⟩ <;>
    · unfold applyFilesTouched
      split <;> rfl

/-- The git-remote step writes only `git_remote_url`. -/
theorem applyGitRemote_preserves (gitCache : Str → Option GitRemoteEntry)
    (tracked : TrackedFile) (e : IngestEvent) :
    (applyGitRemote gitCache tracked e).repo_name = e.repo_name ∧
      (applyGitRemote gitCache tracked e).file_path = e.file_path ∧
      (applyGitRemote gitCache tracked e).session_id = e.session_id := by
  unfold applyGitRemote
  refine ⟨?_, ?_, ?_⟩ <;>
    · repeat' split
      all_goals rfl

/-- A `file_op` whose (truthy) file path matches no registered
subdirectory is dropped by the dispatch loop. -/
theorem routeEvent_none_of_unmatched_fileop (fs matchLine : Str → Option Str)
    (gitCache : Str → Option GitRemoteEntry) {tracked : TrackedFile}
    {e : IngestEvent} {m : List (Str × Str)} {fp : Str}
    (hsub : tracked.sub_dir_repos = some m) (htype : e.event_type = etFileOp)
    (hfp : e.file_path = some fp) (hne : fp ≠ [])
    (hmatch : matchFileToRepo fp (tracked.cwd.getD []) m = none) :
    routeEvent fs matchLine gitCache tracked e = none := by
  obtain ⟨hfp1, _, htype1, _⟩ := maybeEnrich_preserves fs matchLine tracked e
  have hstep :
      routeRepoStep tracked (maybeEnrich fs matchLine tracked e) = none := by
    unfold routeRepoStep
    rw [hsub]
    rw [hfp1, hfp, truthy_of_ne_nil hne]
    simp only [hmatch, htype1, htype]
    simp
  unfold routeEvent
  simp only [hstep]

/-- `TeamConfig` of `src/types.ts`. -/
structure TeamConfig where
  name : Str
  instance_url : Str
  user_token : Str
  user_id : Str
deriving DecidableEq

/-- The tail of the dispatch loop of `Tracer.processFile`: a routed event
is cloned with the team's `user_id` and enqueued once per matched team; a
dropped event (`routeEvent … = none`) touches no queue. -/
def dispatchEvent (fs : Str → Option Str) (matchLine : Str → Option Str)
    (gitCache : Str → Option GitRemoteEntry) (teams : List TeamConfig)
    (tracked : TrackedFile) (sender : SenderState IngestEvent)
    (e : IngestEvent) : SenderState IngestEvent :=
  match routeEvent fs matchLine gitCache tracked e with
  | none => sender
  | some routed =>
    tracked.matched_teams.foldl
      (fun snd url =>
        match teams.find? (fun t => t.instance_url == url) with
        | some team => add snd url team.user_token { routed with user_id := team.user_id }
        | none => snd)
      sender


/-- An empty file system / git cache (`readFileSync` always throws, the
cache has no entries). -/
def noFs : Str → Option Str := fun _ => none

/-- An empty git-remote cache. -/
def noGit : Str → Option GitRemoteEntry := fun _ => none

/-- The parent-directory session of spec scenario 3: `cwd = /w/mono` with
registered subdirectories `a` and `b`; the primary matched repo is the
first subdirectory match, `a`. -/
def c5tracked : TrackedFile :=
  { byte_offset := 0, session_id := str "S", matched_teams := [tUrl],
    matched_repo := str "a", turn_number := 0, files_touched := [],
    cwd := some (str "/w/mono"),
    sub_dir_repos := some [(str "a", str "a"), (str "b", str "b")] }

/-- A FileOp of session `S` touching `/w/mono/a/x.ts`. -/
def c5eventA : IngestEvent :=
  { emptyEvent with
    event_type := etFileOp
    session_id := str "S"
    timestamp := str "T"
    agent_type := str "claude_code"
    tool_name := some (str "Edit")
    operation := some (str "modify")
    file_path := some (str "/w/mono/a/x.ts") }

/-- A FileOp of session `S` touching `/w/mono/b/y.ts`. -/
def c5eventB : IngestEvent :=
  { emptyEvent with
    event_type := etFileOp
    session_id := str "S"
    timestamp := str "T"
    agent_type := str "claude_code"
    tool_name := some (str "Edit")
    operation := some (str "modify")
    file_path := some (str "/w/mono/b/y.ts") }

/-- The Bash sentinel FileOp used by the C10 witness. -/
def c10event : IngestEvent :=
  { emptyEvent with
    event_type := etFileOp
    session_id := str "S"
    tool_name := some (str "Bash")
    operation := some (str "execute")
    file_path := some (str "(bash)") }

/-- Counterexample to C5: in the scenario-3 session the FileOp for
`/w/mono/a/x.ts` is routed (with `repo_name = a` and stripped path
`x.ts`), but its session id stays `S` — not the composite `S:a` the claim
demands of every routed FileOp — because the dispatch loop builds a
composite id only when the routed repo differs from the primary matched
repo. -/
theorem c5_composite_counterexample :
    (routeEvent noFs noFs noGit c5tracked c5eventA).map
        IngestEvent.session_id = some (str "S") ∧
      (routeEvent noFs noFs noGit c5tracked c5eventA).map
        IngestEvent.repo_name = some (str "a") ∧
      (routeEvent noFs noFs noGit c5tracked c5eventA).map
        IngestEvent.file_path = some (some (str "x.ts")) ∧
      str "S" ≠ str "S" ++ str ":" ++ str "a" := by
  refine ⟨?_, ?_, ?_, ?_⟩ <;> decide

/-- C5 (amended) — in a parent-directory session, a FileOp whose file path
lies under `cwd/<subdir>/` is routed with `repo_name` equal to that
subdirectory's repo and its `file_path` stripped relative to the
subdirectory; a FileOp whose file lies outside every registered
subdirectory is dropped; and a routed FileOp carries the composite session
id `S:<repo>` exactly when its routed repo differs from the primary
matched repo (`matches[0]`) — FileOps routed to the primary repo keep the
plain session id. -/
theorem c5_parent_routing_amended :
    (∀ (fs matchLine : Str → Option Str)
        (gitCache : Str → Option GitRemoteEntry) (tracked : TrackedFile)
        (e : IngestEvent) (m : List (Str × Str)) (ct d rest r : Str),
      tracked.sub_dir_repos = some m →
      tracked.cwd = some ('/' :: ct) →
      e.event_type = etFileOp →
      e.file_path = some (cwdPrefix ('/' :: ct) ++ d ++ str "/" ++ rest) →
      '/' ∉ d → d ≠ [] → alookup m d = some r →
      (∀ pr ∈ m, pr.2 = r → pr.1 = d) →
      (routeEvent fs matchLine gitCache tracked e).map
          IngestEvent.repo_name = some r ∧
        (routeEvent fs matchLine gitCache tracked e).map
          IngestEvent.file_path = some (some rest) ∧
        (routeEvent fs matchLine gitCache tracked e).map
          IngestEvent.session_id =
          some (if r = tracked.matched_repo then e.session_id
                else e.session_id ++ str ":" ++ r)) ∧
    (∀ (fs matchLine : Str → Option Str)
        (gitCache : Str → Option GitRemoteEntry) (tracked : TrackedFile)
        (e : IngestEvent) (m : List (Str × Str)) (fp : Str),
      tracked.sub_dir_repos = some m → e.event_type = etFileOp →
      e.file_path = some fp → fp ≠ [] →
      matchFileToRepo fp (tracked.cwd.getD []) m = none →
      routeEvent fs matchLine gitCache tracked e = none) := by
  constructor
  · intro fs matchLine gitCache tracked e m ct d rest r hsub hcwd htype hfp
      hd hdne hlk huniq
    obtain ⟨hfp1, hsid1, htype1, hft1⟩ :=
      maybeEnrich_preserves fs matchLine tracked e
    have hcwdD : tracked.cwd.getD [] = '/' :: ct := by rw [hcwd]; rfl
    have hpt : ∃ pt, cwdPrefix ('/' :: ct) = '/' :: pt := by
      unfold cwdPrefix
      split
      · exact ⟨ct, rfl⟩
      · exact ⟨ct ++ str "/", rfl⟩
    obtain ⟨pt, hptEq⟩ := hpt
    have hne : (cwdPrefix ('/' :: ct) ++ d ++ str "/" ++ rest) ≠ [] := by
      rw [hptEq]
      simp
    have hstep :
        routeRepoStep tracked (maybeEnrich fs matchLine tracked e) =
          some r := by
      unfold routeRepoStep
      simp only [hsub, hfp1, hfp, truthy_of_ne_nil hne, hcwdD,
        matchFileToRepo_under_subdir rfl hd hdne hlk]
    have hroute :
        routeEvent fs matchLine gitCache tracked e =
          some (applyGitRemote gitCache tracked
            { applyFilesTouched tracked
                (applyPathStrip tracked r
                  (applyCompositeId tracked r
                    (maybeEnrich fs matchLine tracked e))) with
              repo_name := r }) := by
      unfold routeEvent
      simp only [hstep]
    obtain ⟨hsid2, hfp2, htype2, hft2⟩ :=
      applyCompositeId_spec tracked r (maybeEnrich fs matchLine tracked e)
    have hfp2' :
        truthy (applyCompositeId tracked r
            (maybeEnrich fs matchLine tracked e)).file_path =
          some (cwdPrefix ('/' :: ct) ++ d ++ str "/" ++ rest) := by
      rw [hfp2, hfp1, hfp, truthy_of_ne_nil hne]
    have hstrip :
        stripSubDirLoop m r (cwdPrefix (tracked.cwd.getD []))
            (cwdPrefix ('/' :: ct) ++ d ++ str "/" ++ rest) = some rest := by
      rw [hcwdD]
      exact stripSubDirLoop_strips huniq (alookup_mem hlk)
    obtain ⟨hfp3, hsid3, htype3, hft3⟩ :=
      applyPathStrip_subdir hsub r hfp2' hstrip
    obtain ⟨hfp4, hsid4, htype4⟩ :=
      applyFilesTouched_preserves tracked
        (applyPathStrip tracked r
          (applyCompositeId tracked r (maybeEnrich fs matchLine tracked e)))
    obtain ⟨hrn6, hfp6, hsid6⟩ :=
      applyGitRemote_preserves gitCache tracked
        { applyFilesTouched tracked
            (applyPathStrip tracked r
              (applyCompositeId tracked r
                (maybeEnrich fs matchLine tracked e))) with
          repo_name := r }
    refine ⟨?_, ?_, ?_⟩
    · rw [hroute, Option.map_some', hrn6]
    · rw [hroute, Option.map_some', hfp6]
      show some (applyFilesTouched tracked _).file_path = _
      rw [hfp4, hfp3]
    · rw [hroute, Option.map_some', hsid6]
      show some (applyFilesTouched tracked _).session_id = _
      rw [hsid4, hsid3, hsid2, hsid1]
      by_cases hr : r = tracked.matched_repo
      · rw [if_pos hr, if_neg (by simp [hr])]
      · rw [if_neg hr, if_pos ⟨by simp [hsub], hr⟩]
  · intro fs matchLine gitCache tracked e m fp hsub htype hfp hne hmatch
    exact routeEvent_none_of_unmatched_fileop fs matchLine gitCache hsub
      htype hfp hne hmatch

/-- Witness for the amended C5 at spec scenario 3: the FileOp for
`/w/mono/b/y.ts` is routed with `repo_name = b`, stripped path `y.ts`, and
(because `b` differs from the primary repo `a`) the composite session id
`S:b`. -/
theorem c5_amended_witness :
    (routeEvent noFs noFs noGit c5tracked c5eventB).map
        IngestEvent.repo_name = some (str "b") ∧
      (routeEvent noFs noFs noGit c5tracked c5eventB).map
        IngestEvent.file_path = some (some (str "y.ts")) ∧
      (routeEvent noFs noFs noGit c5tracked c5eventB).map
        IngestEvent.session_id =
        some (if str "b" = c5tracked.matched_repo then c5eventB.session_id
              else c5eventB.session_id ++ str ":" ++ str "b") :=
  c5_parent_routing_amended.1 noFs noFs noGit c5tracked c5eventB
    [(str "a", str "a"), (str "b", str "b")] (str "w/mono") (str "b")
    (str "y.ts") (str "b") (by decide) (by decide) (by decide) (by decide)
    (by decide) (by decide) (by decide) (by decide)

/-- C10 — in a parent-directory session, every `file_op` whose `file_path`
is present but not an absolute path — in particular the sentinel paths
`(bash)`, `(grep)` and `(glob)` — is dropped and never enqueued to any
team: `matchFileToRepo` requires the path to start with `/`, so the
resolution fails and the dispatch loop `continue`s before any
`sender.add`. -/
theorem c10_nonabsolute_fileop_dropped
    (fs matchLine : Str → Option Str)
    (gitCache : Str → Option GitRemoteEntry) (teams : List TeamConfig)
    (tracked : TrackedFile) (sender : SenderState IngestEvent)
    (e : IngestEvent) (m : List (Str × Str)) (fp : Str)
    (hsub : tracked.sub_dir_repos = some m)
    (htype : e.event_type = etFileOp) (hfp : e.file_path = some fp)
    (hne : fp ≠ []) (habs : startsWith fp (str "/") = false) :
    routeEvent fs matchLine gitCache tracked e = none ∧
      dispatchEvent fs matchLine gitCache teams tracked sender e = sender := by
  have hmatch : matchFileToRepo fp (tracked.cwd.getD []) m = none := by
    unfold matchFileToRepo
    simp [habs]
  have hdrop := routeEvent_none_of_unmatched_fileop fs matchLine gitCache
    hsub htype hfp hne hmatch
  refine ⟨hdrop, ?_⟩
  unfold dispatchEvent
  rw [hdrop]

/-- Witness for C10: the Bash sentinel `(bash)` in the scenario-3
parent-directory session is dropped and the sender state is untouched. -/
theorem c10_witness :
    routeEvent noFs noFs noGit c5tracked c10event = none ∧
      dispatchEvent noFs noFs noGit [] c5tracked
        (mkSender IngestEvent 2000 100) c10event =
        mkSender IngestEvent 2000 100 :=
  c10_nonabsolute_fileop_dropped noFs noFs noGit [] c5tracked
    (mkSender IngestEvent 2000 100) c10event
    [(str "a", str "a"), (str "b", str "b")]
    (str "(bash)") (by decide) (by decide) (by decide) (by decide) (by decide)

/-! ## The Claude-Code adapter (`src/agents/claude-code.ts`)

`parseClaudeCodeLine` turns one journal line and a mutable
`SessionParserState` into an ordered list of events.  `JSON.parse` is a
platform builtin, modelled by the environment's `jsonParse` producing a
`JRecord` (the fields the adapter reads) or `none` for a malformed line;
`getGitBranch` (a `git` child process), `readFileSync`, `hostname()` and
`new Date().toISOString()` are the remaining environment parameters. -/

/-- The tool-use `input` fields read by `extractFileOp`. -/
structure JToolInput where
  file_path : Option Str
  path : Option Str
  notebook_path : Option Str
  command : Option Str
  old_string : Option Str
  new_string : Option Str
deriving DecidableEq

/-- One block of an assistant message's content array. -/
inductive JBlock where
  | text (t : Str)
  | thinking (t : Str)
  | toolUse (name : Str) (input : JToolInput)
  | other
deriving DecidableEq

/-- `message.content`: a string, an array of blocks, or absent. -/
inductive JContent where
  | ofString (s : Str)
  | ofBlocks (bs : List JBlock)
  | absent
deriving DecidableEq

/-- The `message` fields read by the adapter. -/
structure JMessage where
  role : Option Str
  model : Option Str
  content : JContent
deriving DecidableEq

/-- The remote-indicator environment variables read by
`isRemoteSession`. -/
structure JEnv where
  sshClient : Option Str
  codespaces : Option Str
  remoteContainers : Option Str
deriving DecidableEq

/-- The `usage` fields read by the `session_end` branch. -/
structure JUsage where
  input_tokens : Option Nat
  output_tokens : Option Nat
  cache_creation_input_tokens : Option Nat
  cache_read_input_tokens : Option Nat
deriving DecidableEq

/-- A parsed journal record: the JSON fields `parseClaudeCodeLine`
reads.  `rtype` is the record's `type` field. -/
structure JRecord where
  cwd : Option Str
  gitBranch : Option Str
  sessionId : Option Str
  session_id : Option Str
  timestamp : Option Str
  version : Option Str
  rtype : Option Str
  message : Option JMessage
  model : Option Str
  env : Option JEnv
  usage : Option JUsage
  total_cost_usd : Option Nat
  duration_ms : Option Nat
  num_turns : Option Nat
  result : Option Str
deriving DecidableEq

/-- The adapter's environment: the JSON parser, the `git` branch lookup,
the file system, the hostname and the current time. -/
structure AdapterEnv where
  jsonParse : Str → Option JRecord
  gitBranchOf : Option Str → Option Str
  fileContent : Str → Option Str
  host : Str
  nowIso : Str

/-- JavaScript `a || b` on optional strings: the first truthy value, else
`b` unchanged. -/
def truthyOr (a b : Option Str) : Option Str :=
  match truthy a with
  | some x => some x
  | none => b

/-- `AGENT_TYPE` of `src/agents/claude-code.ts`. -/
def AGENT_TYPE : Str := str "claude_code"

/-- `TRACKED_TOOLS` of `src/agents/claude-code.ts`. -/
def TRACKED_TOOLS : List Str :=
  [str "Write", str "Edit", str "Read", str "Bash", str "Grep", str "Glob",
   str "MultiEdit", str "NotebookEdit"]

/-- `extractCwdFromLine`: the `cwd` field of a parsable line. -/
def extractCwdFromLine (env : AdapterEnv) (line : Str) : Option Str :=
  match env.jsonParse line with
  | none => none
  | some parsed => truthy parsed.cwd

/-- `findLineRange` of `src/agents/claude-code.ts`: 1-indexed start/end
lines of `needle` in the file, or `none` when the file is unreadable or
the string absent. -/
def findLineRange (fileContent : Str → Option Str) (filePath needle : Str) :
    Option (Nat × Nat) :=
  match fileContent filePath with
  | none => none
  | some content =>
    match indexOfSub content needle with
    | none => none
    | some idx =>
      let startLine := lineCount (content.take idx)
      let needleLines := lineCount needle
      some (startLine, startLine + needleLines - 1)

/-- `"\n"`-join of a list of strings. -/
def joinNl (l : List Str) : Str := (l.intersperse (str "\n")).flatten

/-- `extractUserPromptText`: a string content is returned as is; an array
content yields the `"\n"`-join of its text blocks, or `null` when there are
none. -/
def extractUserPromptText : JContent → Option Str
  | .ofString s => some s
  | .ofBlocks bs =>
    let textBlocks := bs.filterMap (fun b =>
      match b with
      | .text t => some t
      | _ => none)
    if 0 < textBlocks.length then some (joinNl textBlocks) else none
  | .absent => none

/-- `isRemoteSession`: any of the fixed remote-indicator environment
variables is truthy. -/
def isRemoteSession (parsed : JRecord) : Bool :=
  match parsed.env with
  | none => false
  | some env =>
    truthyB env.sshClient || truthyB env.codespaces ||
      truthyB env.remoteContainers

/-- `extractFileOp` of `src/agents/claude-code.ts`: one `tool_use` block
into an optional `file_op` event, updating the files-touched set. -/
def extractFileOp (env : AdapterEnv) (toolName : Str) (input : JToolInput)
    (parent : JRecord) (sessionId : Str) (st : SessionParserState) :
    Option IngestEvent × SessionParserState :=
  if ¬ TRACKED_TOOLS.contains toolName then (none, st)
  else
    let filePath0 := truthyOr input.file_path input.path
    let step :=
      if toolName = str "Write" then (str "create", filePath0, (none : Option Str))
      else if toolName = str "Edit" then (str "modify", filePath0, none)
      else if toolName = str "MultiEdit" then (str "modify", filePath0, none)
      else if toolName = str "NotebookEdit" then
        (str "modify", truthyOr input.notebook_path filePath0, none)
      else if toolName = str "Read" then (str "read", filePath0, none)
      else if toolName = str "Bash" then
        (str "execute", truthyOr filePath0 (some (str "(bash)")), input.command)
      else if toolName = str "Grep" then
        (str "search", truthyOr filePath0 (some (str "(grep)")), none)
      else if toolName = str "Glob" then
        (str "search", truthyOr filePath0 (some (str "(glob)")), none)
      else (str "read", filePath0, none)
    let operation := step.1
    let filePath := step.2.1
    let bashCommand := step.2.2
    let st :=
      match truthy filePath with
      | some fp =>
        if fp ≠ str "(bash)" ∧ fp ≠ str "(grep)" ∧ fp ≠ str "(glob)" then
          { st with filesTouched := setAdd st.filesTouched fp }
        else st
      | none => st
    let oldString :=
      if toolName = str "Edit" ∨ toolName = str "MultiEdit" then
        truthy input.old_string
      else none
    let newString :=
      if toolName = str "Edit" ∨ toolName = str "MultiEdit" then
        truthy input.new_string
      else none
    let lineRange :=
      match truthy filePath with
      | some fp =>
        if fp ≠ str "(bash)" ∧ (newString.isSome ∨ oldString.isSome) then
          findLineRange env.fileContent fp (newString.getD (oldString.getD []))
        else none
      | none => none
    (some { emptyEvent with
        event_type := etFileOp
        agent_type := AGENT_TYPE
        session_id := (truthy parent.sessionId).getD sessionId
        timestamp := (truthy parent.timestamp).getD env.nowIso
        tool_name := some toolName
        file_path := filePath
        operation := some operation
        start_line := lineRange.map Prod.fst
        end_line := lineRange.map Prod.snd
        bash_command := bashCommand
        old_string := oldString
        new_string := newString }, st)

/-- The `agent_response` event built inside the assistant-content loop. -/
def mkAgentResponse (env : AdapterEnv) (parsed : JRecord) (sessionId : Str)
    (st : SessionParserState) (rtype t : Str) : IngestEvent :=
  { emptyEvent with
    event_type := etAgentResponse
    agent_type := AGENT_TYPE
    session_id := (truthy parsed.sessionId).getD sessionId
    timestamp := (truthy parsed.timestamp).getD env.nowIso
    response_text := some t
    response_type := some rtype
    turn_number := some st.turnNumber }

/-- The result-record branch of `parseClaudeCodeLine`
(`parsed.type === "result"` → one `session_end` event). -/
def parseResult (env : AdapterEnv) (parsed : JRecord) (sessionId : Str)
    (backfillEvents : List IngestEvent) (st : SessionParserState) :
    List IngestEvent × SessionParserState :=
  if parsed.rtype = some (str "result") then
    (backfillEvents ++
      [{ emptyEvent with
         event_type := etSessionEnd
         agent_type := AGENT_TYPE
         session_id := (truthy parsed.session_id).getD sessionId
         timestamp := (truthy parsed.timestamp).getD env.nowIso
         total_cost_usd := parsed.total_cost_usd
         duration_ms := parsed.duration_ms
         num_turns := parsed.num_turns
         total_input_tokens := parsed.usage.bind JUsage.input_tokens
         total_output_tokens := parsed.usage.bind JUsage.output_tokens
         cache_creation_tokens :=
           parsed.usage.bind JUsage.cache_creation_input_tokens
         cache_read_tokens := parsed.usage.bind JUsage.cache_read_input_tokens
         result_summary := parsed.result
         files_touched := some st.filesTouched }], st)
  else (backfillEvents, st)

/-- One step of the assistant-content loop: a non-blank text or thinking
block yields an `agent_response`, a tool use runs `extractFileOp`. -/
def assistantFoldStep (env : AdapterEnv) (parsed : JRecord) (sessionId : Str)
    (acc : List IngestEvent × SessionParserState) (b : JBlock) :
    List IngestEvent × SessionParserState :=
  match b with
  | .text t =>
    if nonBlank t then
      (acc.1 ++ [mkAgentResponse env parsed sessionId acc.2 (str "text") t],
        acc.2)
    else acc
  | .thinking t =>
    if nonBlank t then
      (acc.1 ++
        [mkAgentResponse env parsed sessionId acc.2 (str "thinking") t],
        acc.2)
    else acc
  | .toolUse name input =>
    match extractFileOp env name input parsed sessionId acc.2 with
    | (some ev, st2) => (acc.1 ++ [ev], st2)
    | (none, st2) => (acc.1, st2)
  | .other => acc

/-- The assistant- and result-record branches shared by the fall-through
paths of `parseClaudeCodeLine`. -/
def parseTail (env : AdapterEnv) (parsed : JRecord) (sessionId : Str)
    (backfillEvents : List IngestEvent) (st : SessionParserState) :
    List IngestEvent × SessionParserState :=
  match parsed.message with
  | some msg =>
    if msg.role = some (str "assistant") then
      match msg.content with
      | .ofBlocks bs =>
        bs.foldl (assistantFoldStep env parsed sessionId) (backfillEvents, st)
      | _ => parseResult env parsed sessionId backfillEvents st
    else parseResult env parsed sessionId backfillEvents st
  | none => parseResult env parsed sessionId backfillEvents st

/-- The branch-capture step of `parseClaudeCodeLine`. -/
def captureBranch (parsed : JRecord) (st : SessionParserState) :
    SessionParserState :=
  match truthy parsed.gitBranch with
  | some b => if truthyB st.gitBranch then st else { st with gitBranch := some b }
  | none => st

/-- The cwd-capture step of `parseClaudeCodeLine`. -/
def captureCwd (parsed : JRecord) (st : SessionParserState) :
    SessionParserState :=
  match truthy parsed.cwd with
  | some c => if truthyB st.cwdSeen then st else { st with cwdSeen := some c }
  | none => st

/-- The model-capture step of `parseClaudeCodeLine` (the model appears on
assistant lines at `message.model`). -/
def captureModel (parsed : JRecord) (st : SessionParserState) :
    SessionParserState :=
  match parsed.message with
  | some msg =>
    match truthy msg.model with
    | some m => if truthyB st.model then st else { st with model := some m }
    | none => st
  | none => st

/-- The field-capture prefix of `parseClaudeCodeLine`: remember the first
truthy `gitBranch`, `cwd` and `message.model` seen on any line. -/
def captureFields (parsed : JRecord) (st : SessionParserState) :
    SessionParserState :=
  captureModel parsed (captureCwd parsed (captureBranch parsed st))

/-- The prompt event built by the user-message branches. -/
def mkPrompt (env : AdapterEnv) (parsed : JRecord) (sessionId : Str)
    (turn : Nat) (promptText : Str) : IngestEvent :=
  { emptyEvent with
    event_type := etPrompt
    agent_type := AGENT_TYPE
    session_id := (truthy parsed.sessionId).getD sessionId
    timestamp := (truthy parsed.timestamp).getD env.nowIso
    prompt_text := some promptText
    turn_number := some turn }

/-- The base `session_start` branch of `parseClaudeCodeLine`: set the
emitted flag, resolve the branch (accumulator, then record, then a `git`
lookup), mark the backfills already satisfied, emit the `session_start`,
and also emit a prompt when the same line is a user message. -/
def parseBase (env : AdapterEnv) (parsed : JRecord) (sessionId : Str)
    (st : SessionParserState) : List IngestEvent × SessionParserState :=
  let st := { st with sessionStartEmitted := true }
  let branch :=
    truthyOr st.gitBranch
      (truthyOr parsed.gitBranch (env.gitBranchOf parsed.cwd))
  let st :=
    match truthy branch with
    | some b => { st with gitBranch := some b, branchUpdateEmitted := true }
    | none => st
  let st :=
    if truthyB st.model then { st with modelUpdateEmitted := true } else st
  let startEvent : IngestEvent :=
    { emptyEvent with
      event_type := etSessionStart
      agent_type := AGENT_TYPE
      session_id :=
        (truthy parsed.sessionId).getD
          ((truthy parsed.session_id).getD sessionId)
      timestamp := (truthy parsed.timestamp).getD env.nowIso
      cwd := parsed.cwd
      git_branch := branch
      model := truthyOr st.model parsed.model
      agent_version := parsed.version
      hostname := some env.host
      device_name := some env.host
      is_remote := some (isRemoteSession parsed) }
  match parsed.message with
  | some msg =>
    if msg.role = some (str "user") then
      match truthy (extractUserPromptText msg.content) with
      | some promptText =>
        let st := { st with turnNumber := st.turnNumber + 1 }
        ([startEvent, mkPrompt env parsed sessionId st.turnNumber promptText],
          st)
      | none => ([startEvent], st)
    else ([startEvent], st)
  | none => ([startEvent], st)

/-- The backfill step of `parseClaudeCodeLine`: when the base
`session_start` went out without a branch or model that is now known, emit
one additional `session_start` carrying the now-known fields and mark them
emitted. -/
def backfillStep (env : AdapterEnv) (parsed : JRecord) (sessionId : Str)
    (st : SessionParserState) : List IngestEvent × SessionParserState :=
  let needsBranchBackfill : Bool :=
    st.sessionStartEmitted && !st.branchUpdateEmitted && truthyB st.gitBranch
  let needsModelBackfill : Bool :=
    st.sessionStartEmitted && !st.modelUpdateEmitted && truthyB st.model
  if needsBranchBackfill || needsModelBackfill then
    let st :=
      if needsBranchBackfill then { st with branchUpdateEmitted := true }
      else st
    let st :=
      if needsModelBackfill then { st with modelUpdateEmitted := true }
      else st
    ([{ emptyEvent with
        event_type := etSessionStart
        agent_type := AGENT_TYPE
        session_id :=
          (truthy parsed.sessionId).getD
            ((truthy parsed.session_id).getD sessionId)
        timestamp := (truthy parsed.timestamp).getD env.nowIso
        cwd := st.cwdSeen
        git_branch := st.gitBranch
        model := st.model }], st)
  else ([], st)

/-- The post-backfill branches of `parseClaudeCodeLine`: a user message
yields a prompt; otherwise the assistant- and result-record branches of
`parseTail` run. -/
def parseUserOrTail (env : AdapterEnv) (parsed : JRecord) (sessionId : Str)
    (backfillEvents : List IngestEvent) (st : SessionParserState) :
    List IngestEvent × SessionParserState :=
  match parsed.message with
  | some msg =>
    if msg.role = some (str "user") then
      match truthy (extractUserPromptText msg.content) with
      | some promptText =>
        let st := { st with turnNumber := st.turnNumber + 1 }
        (backfillEvents ++
          [mkPrompt env parsed sessionId st.turnNumber promptText], st)
      | none => parseTail env parsed sessionId backfillEvents st
    else parseTail env parsed sessionId backfillEvents st
  | none => parseTail env parsed sessionId backfillEvents st

/-- `parseClaudeCodeLine` of `src/agents/claude-code.ts`. -/
def parseClaudeCodeLine (env : AdapterEnv) (line : Str) (sessionId : Str)
    (st : SessionParserState) : List IngestEvent × SessionParserState :=
  match env.jsonParse line with
  | none => ([], st)
  | some parsed =>
    let st := captureFields parsed st
    if truthyB parsed.cwd ∧ st.turnNumber = 0 ∧ ¬ st.sessionStartEmitted then
      parseBase env parsed sessionId st
    else
      let bf := backfillStep env parsed sessionId st
      parseUserOrTail env parsed sessionId bf.1 bf.2



/-! ## C2: the transmitted payload of an Edit file-op -/

/-- A journal record with every field absent. -/
def defaultJRecord : JRecord :=
  ⟨none, none, none, none, none, none, none, none, none, none, none, none,
    none, none, none⟩

/-- A tool input with every field absent. -/
def defaultInput : JToolInput :=
  ⟨none, none, none, none, none, none⟩

/-- The assistant record behind C2: one `Edit` tool use replacing `x` by
`y` in `/w/repo/a.ts`. -/
def c2record : JRecord :=
  { defaultJRecord with
    sessionId := some (str "S1")
    timestamp := some (str "T1")
    message := some
      { role := some (str "assistant")
        model := none
        content := .ofBlocks
          [.toolUse (str "Edit")
            { defaultInput with
              file_path := some (str "/w/repo/a.ts")
              old_string := some (str "x")
              new_string := some (str "y") }] } }

/-- An adapter environment whose parser yields `c2record` for every line
and whose file system and git are empty. -/
def c2env : AdapterEnv :=
  { jsonParse := fun _ => some c2record
    gitBranchOf := fun _ => none
    fileContent := fun _ => none
    host := str "h"
    nowIso := str "now" }

/-- A parser state in which the session start has already been emitted. -/
def c2state : SessionParserState :=
  { freshSessionState with
    turnNumber := 1
    sessionStartEmitted := true
    branchUpdateEmitted := true
    modelUpdateEmitted := true }

/-- The tracked file of the C2 session: an ordinary (non-parent) repo. -/
def c2tracked : TrackedFile :=
  { byte_offset := 0, session_id := str "S1", matched_teams := [tUrl],
    matched_repo := str "repo", turn_number := 1, files_touched := [],
    cwd := some (str "/w/repo"), sub_dir_repos := none }

/-- The team configuration of the C2 session. -/
def c2team : TeamConfig :=
  { name := str "T", instance_url := tUrl, user_token := tTok,
    user_id := str "u1" }

/-- The event the adapter derives from `c2record`. -/
def c2adapterEvent : IngestEvent :=
  ((parseClaudeCodeLine c2env (str "L") (str "S1") c2state).1.headD emptyEvent)

/-- The sender state after the tracer dispatches the C2 event and the
batch timer fires: one in-flight ingest POST. -/
def c2senderFinal : SenderState IngestEvent :=
  timerFire
    (dispatchEvent noFs noFs noGit [c2team] c2tracked
      (mkSender IngestEvent 2000 100) c2adapterEvent)
    tUrl

/-- C2 — "the transmitted payload contains no old_string and no
new_string field: the sender strips these local-only fields from every
event before the POST".  Nothing strips them: the adapter sets
`old_string = "x"` and `new_string = "y"` on the Edit file-op, the tracer's
dispatch loop passes them through, and `EventSender.flush` serialises the
popped events verbatim, so the in-flight ingest POST body still carries
both fields. -/
theorem c2_old_new_strings_not_stripped :
    (parseClaudeCodeLine c2env (str "L") (str "S1") c2state).1.map
        IngestEvent.old_string = [some (str "x")] ∧
      c2senderFinal.inflight.map
          (fun p => p.2.map IngestEvent.old_string) = [[some (str "x")]] ∧
      c2senderFinal.inflight.map
          (fun p => p.2.map IngestEvent.new_string) = [[some (str "y")]] := by
  refine ⟨?_, ?_, ?_⟩ <;> decide

/-! ## C9: the SessionStart emission discipline

The base `session_start` is the only one that carries a hostname (the
backfill event sets only session/timestamp/cwd/branch/model), which makes
the two kinds observable on the emitted events. -/

/-- Number of base `session_start` events (the ones carrying a hostname)
in a list. -/
def countBase (es : List IngestEvent) : Nat :=
  es.countP (fun e => decide (e.event_type = etSessionStart ∧ e.hostname ≠ none))

/-- Number of backfill `session_start` events (no hostname) in a list. -/
def countBackfill (es : List IngestEvent) : Nat :=
  es.countP (fun e => decide (e.event_type = etSessionStart ∧ e.hostname = none))

/-- The three emission flags of a parser state. -/
def emFlags (st : SessionParserState) : Bool × Bool × Bool :=
  (st.sessionStartEmitted, st.branchUpdateEmitted, st.modelUpdateEmitted)

theorem countBase_append (a b : List IngestEvent) :
    countBase (a ++ b) = countBase a + countBase b := by
  simp [countBase, List.countP_append]

theorem countBackfill_append (a b : List IngestEvent) :
    countBackfill (a ++ b) = countBackfill a + countBackfill b := by
  simp [countBackfill, List.countP_append]

theorem countBase_single_not_start {e : IngestEvent}
    (h : e.event_type ≠ etSessionStart) : countBase [e] = 0 := by
  simp [countBase, List.countP_cons, h]

theorem countBackfill_single_not_start {e : IngestEvent}
    (h : e.event_type ≠ etSessionStart) : countBackfill [e] = 0 := by
  simp [countBackfill, List.countP_cons, h]

theorem etPrompt_ne_start : etPrompt ≠ etSessionStart := by decide

theorem etAgentResponse_ne_start : etAgentResponse ≠ etSessionStart := by
  decide

theorem etFileOp_ne_start : etFileOp ≠ etSessionStart := by decide

theorem etSessionEnd_ne_start : etSessionEnd ≠ etSessionStart := by decide

/-- The capture prefix touches neither the emission flags nor the turn
counter. -/
theorem captureBranch_preserves (parsed : JRecord) (st : SessionParserState) :
    emFlags (captureBranch parsed st) = emFlags st ∧
      (captureBranch parsed st).turnNumber = st.turnNumber ∧
      (captureBranch parsed st).model = st.model := by
  unfold captureBranch emFlags
  refine ⟨?_, ?_, ?_⟩ <;> (repeat' split) <;> rfl

theorem captureCwd_preserves (parsed : JRecord) (st : SessionParserState) :
    emFlags (captureCwd parsed st) = emFlags st ∧
      (captureCwd parsed st).turnNumber = st.turnNumber ∧
      (captureCwd parsed st).model = st.model := by
  unfold captureCwd emFlags
  refine ⟨?_, ?_, ?_⟩ <;> (repeat' split) <;> rfl

theorem captureModel_preserves (parsed : JRecord) (st : SessionParserState) :
    emFlags (captureModel parsed st) = emFlags st ∧
      (captureModel parsed st).turnNumber = st.turnNumber := by
  unfold captureModel emFlags
  constructor <;> (repeat' split) <;> rfl

theorem captureFields_preserves (parsed : JRecord)
    (st : SessionParserState) :
    emFlags (captureFields parsed st) = emFlags st ∧
      (captureFields parsed st).turnNumber = st.turnNumber := by
  unfold captureFields
  obtain ⟨hb1, hb2, _⟩ := captureBranch_preserves parsed st
  obtain ⟨hc1, hc2, _⟩ := captureCwd_preserves parsed (captureBranch parsed st)
  obtain ⟨hm1, hm2⟩ :=
    captureModel_preserves parsed (captureCwd parsed (captureBranch parsed st))
  exact ⟨by rw [hm1, hc1, hb1], by rw [hm2, hc2, hb2]⟩

/-- `extractFileOp` touches only the files-touched set of the state. -/
theorem extractFileOp_emFlags (env : AdapterEnv) (n : Str) (i : JToolInput)
    (p : JRecord) (sid : Str) (st : SessionParserState) :
    emFlags (extractFileOp env n i p sid st).2 = emFlags st := by
  unfold extractFileOp emFlags
  repeat' first | split | (dsimp only)
  all_goals rfl

/-- Every event `extractFileOp` produces is a `file_op`. -/
theorem extractFileOp_etype (env : AdapterEnv) (n : Str) (i : JToolInput)
    (p : JRecord) (sid : Str) (st : SessionParserState) (ev : IngestEvent)
    (h : (extractFileOp env n i p sid st).1 = some ev) :
    ev.event_type = etFileOp := by
  unfold extractFileOp at h
  split at h
  · simp at h
  · simp only [Option.some.injEq] at h
    subst h
    rfl

/-- One assistant-content step never emits a `session_start` and never
changes an emission flag. -/
theorem assistantFoldStep_counts (env : AdapterEnv) (parsed : JRecord)
    (sid : Str) (acc : List IngestEvent × SessionParserState) (b : JBlock) :
    countBase (assistantFoldStep env parsed sid acc b).1 = countBase acc.1 ∧
      countBackfill (assistantFoldStep env parsed sid acc b).1 =
        countBackfill acc.1 ∧
      emFlags (assistantFoldStep env parsed sid acc b).2 = emFlags acc.2 := by
  unfold assistantFoldStep
  cases b with
  | text t =>
    by_cases hb : nonBlank t = true
    · simp only [hb, if_true]
      refine ⟨?_, ?_, by trivial⟩
      · rw [countBase_append,
          countBase_single_not_start etAgentResponse_ne_start, Nat.add_zero]
      · rw [countBackfill_append,
          countBackfill_single_not_start etAgentResponse_ne_start,
          Nat.add_zero]
    · simp only [hb, if_false]
      exact ⟨rfl, rfl, rfl⟩
  | thinking t =>
    by_cases hb : nonBlank t = true
    · simp only [hb, if_true]
      refine ⟨?_, ?_, by trivial⟩
      · rw [countBase_append,
          countBase_single_not_start etAgentResponse_ne_start, Nat.add_zero]
      · rw [countBackfill_append,
          countBackfill_single_not_start etAgentResponse_ne_start,
          Nat.add_zero]
    · simp only [hb, if_false]
      exact ⟨rfl, rfl, rfl⟩
  | toolUse name input =>
    cases hEF : extractFileOp env name input parsed sid acc.2 with
    | mk opt st2 =>
      have hflags : emFlags st2 = emFlags acc.2 := by
        have := extractFileOp_emFlags env name input parsed sid acc.2
        rw [hEF] at this
        exact this
      cases opt with
      | some ev =>
        have hev : ev.event_type = etFileOp := by
          apply extractFileOp_etype env name input parsed sid acc.2
          rw [hEF]
        simp only [hEF]
        refine ⟨?_, ?_, hflags⟩

        · rw [countBase_append, countBase_single_not_start, Nat.add_zero]
          rw [hev]
          exact etFileOp_ne_start
        · rw [countBackfill_append, countBackfill_single_not_start, Nat.add_zero]
          rw [hev]
          exact etFileOp_ne_start
      | none =>
        simp only [hEF]
        exact ⟨by trivial, by trivial, hflags⟩
  | other => exact ⟨rfl, rfl, rfl⟩

/-- The assistant-content loop never emits a `session_start` and never
changes an emission flag. -/
theorem assistantFold_counts (env : AdapterEnv) (parsed : JRecord)
    (sid : Str) (bs : List JBlock) :
    ∀ acc : List IngestEvent × SessionParserState,
      countBase (bs.foldl (assistantFoldStep env parsed sid) acc).1 =
          countBase acc.1 ∧
        countBackfill (bs.foldl (assistantFoldStep env parsed sid) acc).1 =
          countBackfill acc.1 ∧
        emFlags (bs.foldl (assistantFoldStep env parsed sid) acc).2 =
          emFlags acc.2 := by
  induction bs with
  | nil => exact fun acc => ⟨rfl, rfl, rfl⟩
  | cons b tl ih =>
    intro acc
    obtain ⟨h1, h2, h3⟩ := assistantFoldStep_counts env parsed sid acc b
    obtain ⟨g1, g2, g3⟩ := ih (assistantFoldStep env parsed sid acc b)
    exact ⟨by rw [List.foldl_cons, g1, h1],
      by rw [List.foldl_cons, g2, h2], by rw [List.foldl_cons, g3, h3]⟩

/-- The result branch emits no `session_start` beyond the backfill list
and leaves the state untouched. -/
theorem parseResult_counts (env : AdapterEnv) (parsed : JRecord) (sid : Str)
    (bf : List IngestEvent) (st : SessionParserState) :
    countBase (parseResult env parsed sid bf st).1 = countBase bf ∧
      countBackfill (parseResult env parsed sid bf st).1 = countBackfill bf ∧
      (parseResult env parsed sid bf st).2 = st := by
  unfold parseResult
  split
  · refine ⟨?_, ?_, rfl⟩
    · rw [countBase_append, countBase_single_not_start etSessionEnd_ne_start,
        Nat.add_zero]
    · rw [countBackfill_append,
        countBackfill_single_not_start etSessionEnd_ne_start, Nat.add_zero]
  · exact ⟨rfl, rfl, rfl⟩

/-- The assistant/result fall-through emits no `session_start` beyond the
backfill list and preserves the emission flags. -/
theorem parseTail_counts (env : AdapterEnv) (parsed : JRecord) (sid : Str)
    (bf : List IngestEvent) (st : SessionParserState) :
    countBase (parseTail env parsed sid bf st).1 = countBase bf ∧
      countBackfill (parseTail env parsed sid bf st).1 = countBackfill bf ∧
      emFlags (parseTail env parsed sid bf st).2 = emFlags st := by
  have hres := parseResult_counts env parsed sid bf st
  unfold parseTail
  cases hm : parsed.message with
  | none => exact ⟨hres.1, hres.2.1, by rw [hres.2.2]⟩
  | some msg =>
    dsimp only
    by_cases hrole : msg.role = some (str "assistant")
    · rw [if_pos hrole]
      cases hc : msg.content with
      | ofBlocks bs => exact assistantFold_counts env parsed sid bs (bf, st)
      | ofString s => exact ⟨hres.1, hres.2.1, by rw [hres.2.2]⟩
      | absent => exact ⟨hres.1, hres.2.1, by rw [hres.2.2]⟩
    · rw [if_neg hrole]
      exact ⟨hres.1, hres.2.1, by rw [hres.2.2]⟩

/-- The user-or-tail step emits no `session_start` beyond the backfill
list and preserves the emission flags. -/
theorem parseUserOrTail_counts (env : AdapterEnv) (parsed : JRecord)
    (sid : Str) (bf : List IngestEvent) (st : SessionParserState) :
    countBase (parseUserOrTail env parsed sid bf st).1 = countBase bf ∧
      countBackfill (parseUserOrTail env parsed sid bf st).1 =
        countBackfill bf ∧
      emFlags (parseUserOrTail env parsed sid bf st).2 = emFlags st := by
  have htail := parseTail_counts env parsed sid bf st
  unfold parseUserOrTail
  cases hm : parsed.message with
  | none => exact htail
  | some msg =>
    dsimp only
    by_cases hrole : msg.role = some (str "user")
    · rw [if_pos hrole]
      cases hp : truthy (extractUserPromptText msg.content) with
      | none => exact htail
      | some promptText =>
        refine ⟨?_, ?_, rfl⟩
        · rw [countBase_append, countBase_single_not_start etPrompt_ne_start,
            Nat.add_zero]
        · rw [countBackfill_append,
            countBackfill_single_not_start etPrompt_ne_start, Nat.add_zero]
    · rw [if_neg hrole]
      exact htail

theorem countBase_single_no_host {e : IngestEvent} (h : e.hostname = none) :
    countBase [e] = 0 := by
  simp [countBase, List.countP_cons, h]

theorem countBase_single_start_host {e : IngestEvent}
    (h1 : e.event_type = etSessionStart) (h2 : e.hostname ≠ none) :
    countBase [e] = 1 := by
  simp [countBase, List.countP_cons, h1, h2]

theorem countBackfill_single_start_no_host {e : IngestEvent}
    (h1 : e.event_type = etSessionStart) (h2 : e.hostname = none) :
    countBackfill [e] = 1 := by
  simp [countBackfill, List.countP_cons, h1, h2]

theorem countBackfill_single_host {e : IngestEvent} (h : e.hostname ≠ none) :
    countBackfill [e] = 0 := by
  simp [countBackfill, List.countP_cons, h]

/-- The needs-branch-backfill guard of `backfillStep`. -/
def needsBranchBf (st : SessionParserState) : Bool :=
  st.sessionStartEmitted && !st.branchUpdateEmitted && truthyB st.gitBranch

/-- The needs-model-backfill guard of `backfillStep`. -/
def needsModelBf (st : SessionParserState) : Bool :=
  st.sessionStartEmitted && !st.modelUpdateEmitted && truthyB st.model

/-- What `backfillStep` emits and how it moves the flags: no base event;
exactly one backfill event when a backfill is due; the emitted flag and
turn counter unchanged; each backfill flag ORed with its guard. -/
theorem backfillStep_spec (env : AdapterEnv) (parsed : JRecord) (sid : Str)
    (st : SessionParserState) :
    countBase (backfillStep env parsed sid st).1 = 0 ∧
      countBackfill (backfillStep env parsed sid st).1 =
        (if needsBranchBf st || needsModelBf st then 1 else 0) ∧
      (backfillStep env parsed sid st).2.sessionStartEmitted =
        st.sessionStartEmitted ∧
      (backfillStep env parsed sid st).2.turnNumber = st.turnNumber ∧
      (backfillStep env parsed sid st).2.branchUpdateEmitted =
        (st.branchUpdateEmitted || needsBranchBf st) ∧
      (backfillStep env parsed sid st).2.modelUpdateEmitted =
        (st.modelUpdateEmitted || needsModelBf st) := by
  have hguardB : (st.sessionStartEmitted && !st.branchUpdateEmitted &&
      truthyB st.gitBranch) = needsBranchBf st := rfl
  have hguardM : (st.sessionStartEmitted && !st.modelUpdateEmitted &&
      truthyB st.model) = needsModelBf st := rfl
  unfold backfillStep
  rw [hguardB, hguardM]
  by_cases hcond : (needsBranchBf st || needsModelBf st) = true
  · rw [if_pos hcond, if_pos hcond]
    by_cases hB : needsBranchBf st = true <;>
      by_cases hM : needsModelBf st = true <;>
        simp_all [countBase, countBackfill, List.countP_cons, emptyEvent]
  · rw [if_neg hcond, if_neg hcond]
    have hor := Bool.or_eq_false_iff.mp (Bool.not_eq_true _ |>.mp hcond)
    simp [countBase, countBackfill, hor.1, hor.2]

/-- What `parseBase` emits and how it moves the flags: exactly one base
`session_start` (and possibly a prompt), no backfill event, the emitted
flag set, the backfill flags monotone. -/
theorem parseBase_spec (env : AdapterEnv) (parsed : JRecord) (sid : Str)
    (st : SessionParserState) :
    countBase (parseBase env parsed sid st).1 = 1 ∧
      countBackfill (parseBase env parsed sid st).1 = 0 ∧
      (parseBase env parsed sid st).2.sessionStartEmitted = true ∧
      (st.branchUpdateEmitted = true →
        (parseBase env parsed sid st).2.branchUpdateEmitted = true) ∧
      (st.modelUpdateEmitted = true →
        (parseBase env parsed sid st).2.modelUpdateEmitted = true) := by
  refine ⟨?_, ?_, ?_, ?_, ?_⟩ <;>
    · unfold parseBase
      dsimp only
      repeat' split
      all_goals
        simp [countBase, countBackfill, List.countP_cons,
          etPrompt_ne_start, mkPrompt, emptyEvent]

theorem emFlags_parts {s t : SessionParserState} (h : emFlags s = emFlags t) :
    s.sessionStartEmitted = t.sessionStartEmitted ∧
      s.branchUpdateEmitted = t.branchUpdateEmitted ∧
      s.modelUpdateEmitted = t.modelUpdateEmitted := by
  unfold emFlags at h
  simp only [Prod.mk.injEq] at h
  exact h

/-- The per-line characterization of `parseClaudeCodeLine`: at most one
base `session_start` per line, emitted only from an un-emitted state with
turn 0 (and then the flag is set); no flag ever reverts; and a backfill
`session_start` is emitted exactly when one of the backfill flags rises
while the base flag is already set. -/
theorem parseStep_spec (env : AdapterEnv) (l : Str) (sid : Str)
    (st : SessionParserState) :
    countBase (parseClaudeCodeLine env l sid st).1 ≤ 1 ∧
      (0 < countBase (parseClaudeCodeLine env l sid st).1 →
        st.turnNumber = 0 ∧ st.sessionStartEmitted = false ∧
          (parseClaudeCodeLine env l sid st).2.sessionStartEmitted = true) ∧
      (countBase (parseClaudeCodeLine env l sid st).1 = 0 →
        (parseClaudeCodeLine env l sid st).2.sessionStartEmitted =
          st.sessionStartEmitted) ∧
      (st.branchUpdateEmitted = true →
        (parseClaudeCodeLine env l sid st).2.branchUpdateEmitted = true) ∧
      (st.modelUpdateEmitted = true →
        (parseClaudeCodeLine env l sid st).2.modelUpdateEmitted = true) ∧
      countBackfill (parseClaudeCodeLine env l sid st).1 =
        (if (st.sessionStartEmitted = true ∧ st.branchUpdateEmitted = false ∧
              (parseClaudeCodeLine env l sid st).2.branchUpdateEmitted = true) ∨
            (st.sessionStartEmitted = true ∧ st.modelUpdateEmitted = false ∧
              (parseClaudeCodeLine env l sid st).2.modelUpdateEmitted = true)
          then 1 else 0) ∧
      (0 < countBackfill (parseClaudeCodeLine env l sid st).1 →
        st.sessionStartEmitted = true) := by
  unfold parseClaudeCodeLine
  cases hj : env.jsonParse l with
  | none =>
    dsimp only
    refine ⟨by simp [countBase], ?_, fun _ => rfl, fun h => h, fun h => h,
      ?_, ?_⟩
    · intro h
      simp [countBase] at h
    · rw [if_neg]
      · simp [countBackfill]
      · rintro (⟨_, h1, h2⟩ | ⟨_, h1, h2⟩) <;> simp_all
    · intro h
      simp [countBackfill] at h
  | some parsed =>
    dsimp only
    obtain ⟨hcf, hct⟩ := captureFields_preserves parsed st
    obtain ⟨hcf1, hcf2, hcf3⟩ := emFlags_parts hcf
    split
    · rename_i hg
      obtain ⟨hb1, hb2, hb3, hb4, hb5⟩ :=
        parseBase_spec env parsed sid (captureFields parsed st)
      have hpre : st.sessionStartEmitted = false := by
        have := hg.2.2
        rw [hcf1] at this
        simp at this
        exact this
      refine ⟨by simp [hb1], ?_, ?_, ?_, ?_, ?_, ?_⟩
      · intro _
        refine ⟨?_, hpre, hb3⟩
        have := hg.2.1
        rw [hct] at this
        exact this
      · intro h
        rw [hb1] at h
        simp at h
      · intro h
        apply hb4
        rw [hcf2]
        exact h
      · intro h
        apply hb5
        rw [hcf3]
        exact h
      · rw [hb2, if_neg]
        rintro (⟨h1, _, _⟩ | ⟨h1, _, _⟩) <;> rw [hpre] at h1 <;> simp_all
      · intro h
        rw [hb2] at h
        simp at h
    · rename_i hg
      obtain ⟨hu1, hu2, hu3⟩ :=
        parseUserOrTail_counts env parsed sid
          (backfillStep env parsed sid (captureFields parsed st)).1
          (backfillStep env parsed sid (captureFields parsed st)).2
      obtain ⟨hu31, hu32, hu33⟩ := emFlags_parts hu3
      obtain ⟨hs1, hs2, hs3, hs4, hs5, hs6⟩ :=
        backfillStep_spec env parsed sid (captureFields parsed st)
      refine ⟨?_, ?_, ?_, ?_, ?_, ?_, ?_⟩
      · rw [hu1, hs1]
        exact Nat.zero_le 1
      · intro h
        rw [hu1, hs1] at h
        simp at h
      · intro _
        rw [hu31, hs3, hcf1]
      · intro h
        rw [hu32, hs5, hcf2, h]
        simp
      · intro h
        rw [hu33, hs6, hcf3, h]
        simp
      · rw [hu2, hs2]
        have hcond :
            ((st.sessionStartEmitted = true ∧ st.branchUpdateEmitted = false ∧
                (parseUserOrTail env parsed sid
                  (backfillStep env parsed sid (captureFields parsed st)).1
                  (backfillStep env parsed sid
                    (captureFields parsed st)).2).2.branchUpdateEmitted = true) ∨
              (st.sessionStartEmitted = true ∧ st.modelUpdateEmitted = false ∧
                (parseUserOrTail env parsed sid
                  (backfillStep env parsed sid (captureFields parsed st)).1
                  (backfillStep env parsed sid
                    (captureFields parsed st)).2).2.modelUpdateEmitted = true)) ↔
            (needsBranchBf (captureFields parsed st) ||
              needsModelBf (captureFields parsed st)) = true := by
          rw [hu32, hs5, hcf2, hu33, hs6, hcf3]
          unfold needsBranchBf needsModelBf
          rw [hcf1, hcf2, hcf3]
          cases hE : st.sessionStartEmitted <;>
            cases hB : st.branchUpdateEmitted <;>
              cases hM : st.modelUpdateEmitted <;>
                simp [hE, hB, hM]
        by_cases hbc : (needsBranchBf (captureFields parsed st) ||
            needsModelBf (captureFields parsed st)) = true
        · rw [if_pos hbc, if_pos (hcond.mpr hbc)]
        · rw [if_neg hbc, if_neg (fun hx => hbc (hcond.mp hx))]
      · intro h
        rw [hu2, hs2] at h
        by_cases hc :
            (needsBranchBf (captureFields parsed st) ||
              needsModelBf (captureFields parsed st)) = true
        · rw [Bool.or_eq_true] at hc
          rcases hc with hcb | hcm
          · have : (captureFields parsed st).sessionStartEmitted = true := by
              unfold needsBranchBf at hcb
              simp only [Bool.and_eq_true] at hcb
              exact hcb.1.1
            rw [← hcf1]
            exact this
          · have : (captureFields parsed st).sessionStartEmitted = true := by
              unfold needsModelBf at hcm
              simp only [Bool.and_eq_true] at hcm
              exact hcm.1.1
            rw [← hcf1]
            exact this
        · rw [if_neg hc] at h
          simp at h

/-! ## C9: the adapter run over a line stream -/

/-- The per-line loop of `Tracer.processFile` restricted to the adapter:
parse each line with the current accumulator, thread the accumulator and
concatenate the emitted events. -/
def runParse (env : AdapterEnv) (sid : Str) (ls : List Str)
    (st : SessionParserState) : List IngestEvent × SessionParserState :=
  match ls with
  | [] => ([], st)
  | l :: rest =>
    let out := parseClaudeCodeLine env l sid st
    let tail := runParse env sid rest out.2
    (out.1 ++ tail.1, tail.2)

/-- The (pre, post) accumulator pairs of the per-line steps of a run. -/
def parseSteps (env : AdapterEnv) (sid : Str) (ls : List Str)
    (st : SessionParserState) :
    List (SessionParserState × SessionParserState) :=
  match ls with
  | [] => []
  | l :: rest =>
    (st, (parseClaudeCodeLine env l sid st).2) ::
      parseSteps env sid rest (parseClaudeCodeLine env l sid st).2

/-- Across a whole run, at most one base `session_start` is emitted: the
count is zero from an already-emitted accumulator, at most one otherwise,
and the emitted flag never reverts. -/
theorem runParse_base_bound (env : AdapterEnv) (sid : Str)
    (ls : List Str) (st : SessionParserState) :
    countBase (runParse env sid ls st).1 ≤
      (if st.sessionStartEmitted = true then 0 else 1) ∧
      (st.sessionStartEmitted = true →
        (runParse env sid ls st).2.sessionStartEmitted = true) := by
  induction ls generalizing st with
  | nil => exact ⟨by simp [runParse, countBase], fun h => h⟩
  | cons l rest ih =>
    rw [show runParse env sid (l :: rest) st =
        ((parseClaudeCodeLine env l sid st).1 ++
          (runParse env sid rest (parseClaudeCodeLine env l sid st).2).1,
         (runParse env sid rest (parseClaudeCodeLine env l sid st).2).2)
      from rfl]
    obtain ⟨ha, hb, hc, _⟩ := parseStep_spec env l sid st
    by_cases hE : st.sessionStartEmitted = true
    · have h0 : countBase (parseClaudeCodeLine env l sid st).1 = 0 := by
        rcases Nat.eq_zero_or_pos
            (countBase (parseClaudeCodeLine env l sid st).1) with h | h
        · exact h
        · have hf := (hb h).2.1
          rw [hf] at hE
          exact absurd hE (by simp)
      have hpost :
          (parseClaudeCodeLine env l sid st).2.sessionStartEmitted = true := by
        rw [hc h0]
        exact hE
      obtain ⟨iht, ihe⟩ := ih (parseClaudeCodeLine env l sid st).2
      rw [hpost] at iht
      simp at iht
      refine ⟨?_, fun _ => ihe hpost⟩
      rw [countBase_append, h0, if_pos hE]
      omega
    · have hEf : st.sessionStartEmitted = false := by
        cases hx : st.sessionStartEmitted
        · rfl
        · exact absurd hx hE
      rcases Nat.eq_zero_or_pos
          (countBase (parseClaudeCodeLine env l sid st).1) with h0 | h0
      · have hpost :
            (parseClaudeCodeLine env l sid st).2.sessionStartEmitted =
              st.sessionStartEmitted := hc h0
        have iht := (ih (parseClaudeCodeLine env l sid st).2).1
        rw [hpost, hEf] at iht
        simp only [Bool.false_eq_true, if_neg (by simp : ¬False)] at iht
        refine ⟨?_, fun h => absurd h hE⟩
        rw [countBase_append, h0, if_neg hE]
        omega
      · have hpost := (hb h0).2.2
        have iht := (ih (parseClaudeCodeLine env l sid st).2).1
        rw [hpost] at iht
        simp at iht
        refine ⟨?_, fun h => absurd h hE⟩
        rw [countBase_append, if_neg hE]
        omega

/-- A flag that single steps never reset flips from `false` to `true` at
most once along a run, and never from an already-set start. -/
theorem parseSteps_flip_le (env : AdapterEnv) (sid : Str)
    (g : SessionParserState → Bool)
    (hmono : ∀ st : SessionParserState, ∀ l : Str, g st = true →
      g (parseClaudeCodeLine env l sid st).2 = true)
    (ls : List Str) (st : SessionParserState) :
    (parseSteps env sid ls st).countP
        (fun p => decide (g p.1 = false ∧ g p.2 = true)) ≤ 1 ∧
      (g st = true →
        (parseSteps env sid ls st).countP
          (fun p => decide (g p.1 = false ∧ g p.2 = true)) = 0) := by
  induction ls generalizing st with
  | nil => exact ⟨by simp [parseSteps], by simp [parseSteps]⟩
  | cons l rest ih =>
    rw [show parseSteps env sid (l :: rest) st =
        (st, (parseClaudeCodeLine env l sid st).2) ::
          parseSteps env sid rest (parseClaudeCodeLine env l sid st).2
      from rfl]
    by_cases hpost : g (parseClaudeCodeLine env l sid st).2 = true
    · have ht := (ih (parseClaudeCodeLine env l sid st).2).2 hpost
      constructor
      · simp only [List.countP_cons, ht, Nat.zero_add]
        split <;> simp
      · intro hpre
        rw [List.countP_cons, ht]
        simp [hpre]
    · have hpostf : g (parseClaudeCodeLine env l sid st).2 = false := by
        cases hx : g (parseClaudeCodeLine env l sid st).2
        · rfl
        · exact absurd hx hpost
      constructor
      · have ht := (ih (parseClaudeCodeLine env l sid st).2).1
        simpa [List.countP_cons, hpostf] using ht
      · intro hpre
        exact absurd (hmono st l hpre) hpost

/-- The backfill `session_start` events of a run are exactly the steps
where a backfill flag rises while the base flag is set. -/
theorem runParse_backfill_eq (env : AdapterEnv) (sid : Str)
    (ls : List Str) (st : SessionParserState) :
    countBackfill (runParse env sid ls st).1 =
      (parseSteps env sid ls st).countP
        (fun p => decide ((p.1.sessionStartEmitted = true ∧
            p.1.branchUpdateEmitted = false ∧
            p.2.branchUpdateEmitted = true) ∨
          (p.1.sessionStartEmitted = true ∧
            p.1.modelUpdateEmitted = false ∧
            p.2.modelUpdateEmitted = true))) := by
  induction ls generalizing st with
  | nil => simp [runParse, parseSteps, countBackfill]
  | cons l rest ih =>
    rw [show runParse env sid (l :: rest) st =
        ((parseClaudeCodeLine env l sid st).1 ++
          (runParse env sid rest (parseClaudeCodeLine env l sid st).2).1,
         (runParse env sid rest (parseClaudeCodeLine env l sid st).2).2)
      from rfl]
    rw [show parseSteps env sid (l :: rest) st =
        (st, (parseClaudeCodeLine env l sid st).2) ::
          parseSteps env sid rest (parseClaudeCodeLine env l sid st).2
      from rfl]
    rw [countBackfill_append,
      (parseStep_spec env l sid st).2.2.2.2.2.1,
      ih (parseClaudeCodeLine env l sid st).2, List.countP_cons]
    by_cases hP :
        (st.sessionStartEmitted = true ∧ st.branchUpdateEmitted = false ∧
          (parseClaudeCodeLine env l sid st).2.branchUpdateEmitted = true) ∨
        (st.sessionStartEmitted = true ∧ st.modelUpdateEmitted = false ∧
          (parseClaudeCodeLine env l sid st).2.modelUpdateEmitted = true)
    · simp [hP, Nat.add_comm]
    · simp [hP]

/-- A run that never emits the base `session_start` from an un-emitted
accumulator emits no backfill either. -/
theorem runParse_nobackfill (env : AdapterEnv) (sid : Str)
    (ls : List Str) (st : SessionParserState)
    (hst : st.sessionStartEmitted = false)
    (hnb : countBase (runParse env sid ls st).1 = 0) :
    countBackfill (runParse env sid ls st).1 = 0 := by
  induction ls generalizing st with
  | nil => simp [runParse, countBackfill]
  | cons l rest ih =>
    rw [show runParse env sid (l :: rest) st =
        ((parseClaudeCodeLine env l sid st).1 ++
          (runParse env sid rest (parseClaudeCodeLine env l sid st).2).1,
         (runParse env sid rest (parseClaudeCodeLine env l sid st).2).2)
      from rfl] at hnb ⊢
    rw [countBase_append] at hnb
    rw [countBackfill_append]
    obtain ⟨_, _, hc, _, _, hf, _⟩ := parseStep_spec env l sid st
    have h0 : countBase (parseClaudeCodeLine env l sid st).1 = 0 ∧
        countBase
          (runParse env sid rest (parseClaudeCodeLine env l sid st).2).1 =
          0 := by omega
    have hpost :
        (parseClaudeCodeLine env l sid st).2.sessionStartEmitted = false := by
      rw [hc h0.1]
      exact hst
    have htail := ih (parseClaudeCodeLine env l sid st).2 hpost h0.2
    have hstep : countBackfill (parseClaudeCodeLine env l sid st).1 = 0 := by
      rw [hf, if_neg]
      rintro (⟨h1, _, _⟩ | ⟨h1, _, _⟩) <;> rw [hst] at h1 <;> simp_all
    rw [hstep, htail]

/-- The base `session_start` fires on a line exactly when the line parses,
its record has a truthy `cwd`, and the accumulator is at turn 0 with the
emitted flag unset. -/
theorem parseStep_base_iff (env : AdapterEnv) (l : Str) (sid : Str)
    (st : SessionParserState) :
    0 < countBase (parseClaudeCodeLine env l sid st).1 ↔
      ∃ p : JRecord, env.jsonParse l = some p ∧ truthyB p.cwd = true ∧
        st.turnNumber = 0 ∧ st.sessionStartEmitted = false := by
  unfold parseClaudeCodeLine
  cases hj : env.jsonParse l with
  | none =>
    dsimp only
    constructor
    · intro h
      simp [countBase] at h
    · rintro ⟨p, hp, _⟩
      exact Option.noConfusion hp
  | some parsed =>
    dsimp only
    obtain ⟨hcf, hct⟩ := captureFields_preserves parsed st
    obtain ⟨hcf1, _, _⟩ := emFlags_parts hcf
    split
    · rename_i hg
      constructor
      · intro _
        refine ⟨parsed, rfl, hg.1, ?_, ?_⟩
        · rw [← hct]
          exact hg.2.1
        · have h2 := hg.2.2
          rw [hcf1] at h2
          simpa using h2
      · intro _
        rw [(parseBase_spec env parsed sid (captureFields parsed st)).1]
        exact Nat.one_pos
    · rename_i hg
      constructor
      · intro h
        obtain ⟨hu1, _, _⟩ :=
          parseUserOrTail_counts env parsed sid
            (backfillStep env parsed sid (captureFields parsed st)).1
            (backfillStep env parsed sid (captureFields parsed st)).2
        rw [hu1,
          (backfillStep_spec env parsed sid (captureFields parsed st)).1]
          at h
        simp at h
      · rintro ⟨p, hp, h1, h2, h3⟩
        injection hp with he
        refine absurd ⟨?_, ?_, ?_⟩ hg
        · rw [he]
          exact h1
        · rw [hct]
          exact h2
        · rw [hcf1]
          simp [h3]

/-- C9: over any stream of journal lines from a fresh accumulator, the
adapter emits the base `session_start` (the `session_start` carrying a
hostname) at most once; the branch backfill flag and the model backfill
flag each rise at most once; a backfill `session_start` (no hostname) is
emitted exactly at the steps where one of the two backfill flags rises
with the base flag already set — so each backfill is emitted at most once
and only after the base emission; no backfill is ever emitted in a run
with no base emission; and the base fires on a line exactly when the line
parses with a truthy `cwd` while the accumulator is at turn 0 with the
emitted flag unset. -/
theorem c9_session_start_at_most_once (env : AdapterEnv) (sid : Str)
    (ls : List Str) :
    countBase (runParse env sid ls freshSessionState).1 ≤ 1 ∧
      (parseSteps env sid ls freshSessionState).countP
        (fun p => decide (p.1.branchUpdateEmitted = false ∧
          p.2.branchUpdateEmitted = true)) ≤ 1 ∧
      (parseSteps env sid ls freshSessionState).countP
        (fun p => decide (p.1.modelUpdateEmitted = false ∧
          p.2.modelUpdateEmitted = true)) ≤ 1 ∧
      countBackfill (runParse env sid ls freshSessionState).1 =
        (parseSteps env sid ls freshSessionState).countP
          (fun p => decide ((p.1.sessionStartEmitted = true ∧
              p.1.branchUpdateEmitted = false ∧
              p.2.branchUpdateEmitted = true) ∨
            (p.1.sessionStartEmitted = true ∧
              p.1.modelUpdateEmitted = false ∧
              p.2.modelUpdateEmitted = true))) ∧
      (countBase (runParse env sid ls freshSessionState).1 = 0 →
        countBackfill (runParse env sid ls freshSessionState).1 = 0) ∧
      (∀ l : Str, ∀ st : SessionParserState,
        0 < countBase (parseClaudeCodeLine env l sid st).1 ↔
          ∃ p : JRecord, env.jsonParse l = some p ∧ truthyB p.cwd = true ∧
            st.turnNumber = 0 ∧ st.sessionStartEmitted = false) := by
  refine ⟨?_, ?_, ?_, runParse_backfill_eq env sid ls freshSessionState,
    fun h => runParse_nobackfill env sid ls freshSessionState rfl h,
    fun l st => parseStep_base_iff env l sid st⟩
  · have h := (runParse_base_bound env sid ls freshSessionState).1
    simpa [freshSessionState] using h
  · exact (parseSteps_flip_le env sid (fun s => s.branchUpdateEmitted)
      (fun st l h => (parseStep_spec env l sid st).2.2.2.1 h)
      ls freshSessionState).1
  · exact (parseSteps_flip_le env sid (fun s => s.modelUpdateEmitted)
      (fun st l h => (parseStep_spec env l sid st).2.2.2.2.1 h)
      ls freshSessionState).1

/-- A record whose only field is a truthy `cwd`: triggers the base. -/
def c9rec1 : JRecord := { defaultJRecord with cwd := some (str "/w/r") }

/-- A record whose only field is a `gitBranch`: triggers the branch
backfill after the base. -/
def c9rec2 : JRecord := { defaultJRecord with gitBranch := some (str "main") }

/-- A user-message record: yields a prompt, no `session_start`. -/
def c9rec3 : JRecord :=
  { defaultJRecord with
      message := some
        { role := some (str "user")
          model := none
          content := JContent.ofString (str "hi") } }

/-- A concrete adapter environment with three parsable lines. -/
def c9env : AdapterEnv :=
  { jsonParse := fun l =>
      if l = str "1" then some c9rec1
      else if l = str "2" then some c9rec2
      else if l = str "3" then some c9rec3
      else none
    gitBranchOf := fun _ => none
    fileContent := fun _ => none
    host := str "host"
    nowIso := str "now" }

theorem c9_witness :
    countBase (runParse c9env (str "S") [str "3"] freshSessionState).1 = 0 ∧
      countBackfill
        (runParse c9env (str "S") [str "3"] freshSessionState).1 = 0 ∧
      countBase (runParse c9env (str "S") [str "1", str "2", str "3"]
        freshSessionState).1 = 1 ∧
      countBackfill (runParse c9env (str "S") [str "1", str "2", str "3"]
        freshSessionState).1 = 1 := by
  refine ⟨by decide, ?_, by decide, by decide⟩
  exact (c9_session_start_at_most_once c9env (str "S")
    [str "3"]).2.2.2.2.1 (by decide)

/-! ## C6: the overlap probe's local-mirror fallback (`src/check.ts`) -/

/-- An edited region of a cached team-state session: the fields the
fallback classification of `cmdCheck` reads. -/
structure Region where
  file_path : Str
  start_line : Option Int
  end_line : Option Int
  function_name : Option Str
deriving DecidableEq

/-- A cached team-state session: the fields the fallback match loop
reads (the display/url fields are copied into the match verbatim and
never influence the tier or the decision). -/
structure TeamSession where
  user_id : Str
  repo_name : Str
  regions : List Region
deriving DecidableEq

/-- The overlap tiers of `cmdCheck`. -/
inductive Tier where
  | line
  | function
  | adjacent
  | file
deriving DecidableEq

/-- The decisions of `cmdCheck`. -/
inductive OverlapDecision where
  | proceed
  | block
  | warn
deriving DecidableEq

/-- The tier assigned to one region by the fallback loop of `cmdCheck`
(lines 260-287 of `src/check.ts`): `tier` starts as `file`; with all four
line numbers present it becomes `line` on intersection, else `adjacent`
when the gap is at most 30; a still-`file` tier becomes `function` when
both function names are truthy and equal. -/
def computeTier (targetStartLine targetEndLine : Option Int)
    (targetFunctionName : Option Str) (region : Region) : Tier :=
  let tier : Tier :=
    match targetStartLine, targetEndLine, region.start_line,
        region.end_line with
    | some ts, some te, some rs, some re =>
      if ts ≤ re ∧ te ≥ rs then Tier.line
      else if min (ts - re).natAbs (te - rs).natAbs ≤ 30 then Tier.adjacent
      else Tier.file
    | _, _, _, _ => Tier.file
  if tier = Tier.file ∧ truthyB region.function_name = true ∧
      truthyB targetFunctionName = true then
    if region.function_name = targetFunctionName then Tier.function else tier
  else tier

/-- The tiers of the fallback matches: sessions of the current user are
skipped, the session repo must equal the current repo, and a region must
be in the probed file. -/
def cacheMatches (currentUserIds : List Str) (repoName relPath : Str)
    (targetStartLine targetEndLine : Option Int)
    (targetFunctionName : Option Str)
    (sessions : List TeamSession) : List Tier :=
  (sessions.map (fun session =>
    if currentUserIds.contains session.user_id then []
    else if session.repo_name ≠ repoName then []
    else
      (session.regions.filter (fun r => r.file_path = relPath)).map
        (computeTier targetStartLine targetEndLine
          targetFunctionName))).flatten

/-- The decision tail of the fallback: `proceed` on no matches, else
`block` when some match has tier `line` or `function`, else `warn`. -/
def cacheDecision (ms : List Tier) : OverlapDecision :=
  if ms.length = 0 then OverlapDecision.proceed
  else if ms.any
      (fun t => decide (t = Tier.line ∨ t = Tier.function)) then
    OverlapDecision.block
  else OverlapDecision.warn

theorem hasHard_iff (ms : List Tier) :
    ms.any (fun t => decide (t = Tier.line ∨ t = Tier.function)) = true ↔
      Tier.line ∈ ms ∨ Tier.function ∈ ms := by
  simp only [List.any_eq_true, decide_eq_true_eq]
  constructor
  · rintro ⟨t, htm, h | h⟩ <;> subst h
    · exact Or.inl htm
    · exact Or.inr htm
  · rintro (h | h)
    · exact ⟨Tier.line, h, Or.inl rfl⟩
    · exact ⟨Tier.function, h, Or.inr rfl⟩

/-- C6: for a region with all four line numbers, the fallback tier is
`line` when the ranges intersect, `adjacent` when they do not but the
gap is at most 30, `function` when neither holds and both sides expose
equal truthy function names, and `file` otherwise; the decision is
`proceed` exactly on no matches, and on any match it is `block` exactly
when some match has tier `line` or `function`, else `warn`. -/
theorem c6_cache_tiers_and_decision :
    (∀ tS tE rs re : Int, ∀ tF : Option Str, ∀ r : Region,
      r.start_line = some rs → r.end_line = some re →
      ((tS ≤ re ∧ tE ≥ rs →
          computeTier (some tS) (some tE) tF r = Tier.line) ∧
        (¬(tS ≤ re ∧ tE ≥ rs) →
          min (tS - re).natAbs (tE - rs).natAbs ≤ 30 →
          computeTier (some tS) (some tE) tF r = Tier.adjacent) ∧
        (¬(tS ≤ re ∧ tE ≥ rs) →
          30 < min (tS - re).natAbs (tE - rs).natAbs →
          truthyB r.function_name = true → truthyB tF = true →
          r.function_name = tF →
          computeTier (some tS) (some tE) tF r = Tier.function) ∧
        (¬(tS ≤ re ∧ tE ≥ rs) →
          30 < min (tS - re).natAbs (tE - rs).natAbs →
          ¬(truthyB r.function_name = true ∧ truthyB tF = true ∧
              r.function_name = tF) →
          computeTier (some tS) (some tE) tF r = Tier.file))) ∧
      (∀ ms : List Tier,
        (cacheDecision ms = OverlapDecision.proceed ↔ ms = []) ∧
        (ms ≠ [] →
          (cacheDecision ms = OverlapDecision.block ↔
            (Tier.line ∈ ms ∨ Tier.function ∈ ms)) ∧
          (cacheDecision ms = OverlapDecision.warn ↔
            ¬(Tier.line ∈ ms ∨ Tier.function ∈ ms)))) := by
  constructor
  · intro tS tE rs re tF r hrs hre
    refine ⟨?_, ?_, ?_, ?_⟩
    · intro hint
      unfold computeTier
      rw [hrs, hre]
      dsimp only
      rw [if_pos hint, if_neg (by simp)]
    · intro hint hgap
      unfold computeTier
      rw [hrs, hre]
      dsimp only
      rw [if_neg hint, if_pos hgap, if_neg (by simp)]
    · intro hint hgap hfn htf heq
      unfold computeTier
      rw [hrs, hre]
      dsimp only
      rw [if_neg hint, if_neg (Nat.not_le.mpr hgap),
        if_pos ⟨rfl, hfn, htf⟩, if_pos heq]
    · intro hint hgap hno
      unfold computeTier
      rw [hrs, hre]
      dsimp only
      rw [if_neg hint, if_neg (Nat.not_le.mpr hgap)]
      by_cases hAB : truthyB r.function_name = true ∧ truthyB tF = true
      · rw [if_pos ⟨rfl, hAB.1, hAB.2⟩,
          if_neg (fun he => hno ⟨hAB.1, hAB.2, he⟩)]
      · rw [if_neg (fun hc => hAB ⟨hc.2.1, hc.2.2⟩)]
  · intro ms
    constructor
    · unfold cacheDecision
      cases ms with
      | nil => simp
      | cons a l =>
        rw [if_neg (by simp)]
        split <;> simp
    · intro hne
      unfold cacheDecision
      rw [if_neg (by simpa [List.length_eq_zero] using hne)]
      constructor
      · constructor
        · intro hd
          by_cases hany : ms.any
              (fun t => decide (t = Tier.line ∨ t = Tier.function)) = true
          · exact (hasHard_iff ms).mp hany
          · rw [if_neg hany] at hd
            exact absurd hd (by simp)
        · intro hm
          rw [if_pos ((hasHard_iff ms).mpr hm)]
      · constructor
        · intro hd hm
          rw [if_pos ((hasHard_iff ms).mpr hm)] at hd
          exact absurd hd (by simp)
        · intro hnm
          rw [if_neg (fun h => hnm ((hasHard_iff ms).mp h))]

/-- A teammate region intersecting the probed range. -/
def c6region : Region :=
  { file_path := str "a.ts", start_line := some 11, end_line := some 20,
    function_name := none }

/-- A teammate session owning that region. -/
def c6session : TeamSession :=
  { user_id := str "other", repo_name := str "repo",
    regions := [c6region] }

theorem c6_witness :
    computeTier (some 10) (some 12) none c6region = Tier.line ∧
      cacheDecision [Tier.line] = OverlapDecision.block ∧
      cacheMatches [str "me"] (str "repo") (str "a.ts") (some 10) (some 12)
        none [c6session] = [Tier.line] := by
  refine ⟨?_, ?_, by decide⟩
  · exact (c6_cache_tiers_and_decision.1 10 12 11 20 none c6region
      rfl rfl).1 (by decide)
  · exact ((c6_cache_tiers_and_decision.2 [Tier.line]).2
      (by decide)).1.mpr (by decide)

end OverlapTracer
